import Mathlib

/-
  Verification of the bosgo test server's dual state machine
  (testserver/server.go, latest revision: the job engine driving
  access-linking/refresh workflows and the transfer engine driving
  transfer authorization), as a shallow embedding in Lean 4.

  Modelling conventions:
  * Go maps are embedded as association lists; `tableSet` mirrors map
    assignment (replace in place, else append) so the content (key set and
    values) coincides with the Go map's.  Go's nondeterministic map
    iteration order is fixed to the association-list order; none of the
    verified properties depend on iteration order.
  * Machine integers (`Version int`, account ids) are embedded as `Int`;
    the server never performs arithmetic on them, only comparison.
  * `time.Time` instants are embedded as an abstract `Nat` parameter
    `now` passed to the operations that read the clock.
  * The `bosgo` string constants for stages, intents and transfer states
    live in the package's types.go, which is not part of the sources here;
    the control flow only ever compares them for equality, so they are
    embedded as closed inductive types, plus `stateStr` for the one place
    a state's string value is spliced into an error code
    ("state_<state>_unprocessable"; the spec pins
    "state_failed_unprocessable" for the failed state).
  * HTTP plumbing (authentication, JSON decoding, status codes) is out of
    scope per the spec; handlers are embedded from the point where the
    entity has been resolved, as pure functions on a `ServerState`.
-/

namespace Bosgo

/-- A challenge answer `{ID, Value, Store}` (bosgo.ChallengeAnswer). -/
structure ChallengeAnswer where
  id : String
  value : String
  store : Bool := false
  deriving DecidableEq

/-- A problem object `{code, payload?}` (bosgo.Problem).  The `Info`
map is only ever populated with a single `"field_key"` entry, embedded
here as `fieldKey`. -/
structure Problem where
  code : String
  fieldKey : Option String := none
  deriving DecidableEq

/-- Job stages (bosgo.JobStage constants used by the test server). -/
inductive JobStage where
  | unauthenticated
  | challenge
  | imported
  | problem
  deriving DecidableEq

/-- Job actions (testserver.JobAction). -/
inductive JobAction where
  | create
  | refresh
  deriving DecidableEq

/-- Transfer intents: `transferInit` is the test server's own
"transfer_init" constant; `empty` is the zero value of
`bosgo.TransferStep.Intent` (the cleared step `TransferStep{}`). -/
inductive TransferIntent where
  | init
  | provideCredentials
  | selectAuthMethod
  | provideChallengeAnswer
  | confirmSimilarTransfer
  | empty
  deriving DecidableEq

/-- Transfer states (bosgo.TransferState constants used by the server). -/
inductive TransferState where
  | ongoing
  | succeeded
  | failed
  deriving DecidableEq

/-- The string value of a transfer state, spliced into
`state_<state>_unprocessable`.  Modelled from the spec: types.go is not
among the sources; the spec's scenario 4 fixes `state_failed_unprocessable`
for the failed state. -/
def stateStr : TransferState → String
  | .ongoing => "ongoing"
  | .succeeded => "succeeded"
  | .failed => "failed"

/-- Transfer types (bosgo.TransferType). -/
inductive TransferType where
  | regular
  | recurring
  deriving DecidableEq

/-- An account inside an access (the fields the test server reads). -/
structure Account where
  id : Int := 0
  name : String := ""
  number : String := ""
  iban : String := ""
  deriving DecidableEq

/-- A bank access fixture (bosgo.Access: the fields the server reads). -/
structure Access where
  id : Int := 0
  providerID : String := ""
  name : String := ""
  accounts : List Account := []
  deriving DecidableEq

/-- Transactions are opaque fixture payloads the server only copies
around; they are embedded by their int64 ID. -/
abbrev Transaction := Int

/-- Repeated transactions, likewise embedded by ID. -/
abbrev RepeatedTransaction := Int

/-- One transfer authorization method (testserver.TransferAuth). -/
structure TransferAuth where
  method : String
  message : String
  answer : String
  deriving DecidableEq

/-- Administrator-configured access details (testserver.AccessDetails).
`challengeMap` and `stageProblems` are Go maps, embedded as association
lists. -/
structure AccessDetails where
  access : Access := {}
  transactions : List Transaction := []
  scheduledTransactions : List Transaction := []
  repeatedTransactions : List RepeatedTransaction := []
  challengeMap : List (String × String) := []
  transferAuths : List TransferAuth := []
  stageProblems : List (JobStage × List Problem) := []
  deriving DecidableEq

/-- A user record (testserver.User: the fields the engines touch).
`storedAnswers` is the Go map from provider ID to stored challenge
answers. -/
structure User where
  id : String := ""
  accesses : List Access := []
  transactions : List Transaction := []
  scheduledTransactions : List Transaction := []
  repeatedTransactions : List RepeatedTransaction := []
  storedAnswers : List (String × List ChallengeAnswer) := []
  deriving DecidableEq

/-- One access-linking/refresh job (testserver.Job). -/
structure Job where
  id : String := ""
  userID : String := ""
  providerID : String := ""
  stage : JobStage := .unauthenticated
  suppliedAnswers : List ChallengeAnswer := []
  accessDetails : AccessDetails := {}
  finished : Bool := false
  needsAnswers : Bool := false
  jobAction : JobAction := .create
  problems : List Problem := []
  deriving DecidableEq

/-- Go map assignment `m[k] = v` on an association list: replace the
binding in place if the key is present, append otherwise. -/
def tableSet {α : Type} (t : List (String × α)) (k : String) (v : α) :
    List (String × α) :=
  match t with
  | [] => [(k, v)]
  | (k0, v0) :: rest =>
    if k0 = k then (k, v) :: rest else (k0, v0) :: tableSet rest k v

/-- Go map lookup with the zero value `""` as default
(`ChallengeMap[id]`). -/
def mapGetD (m : List (String × String)) (k : String) : String :=
  (m.lookup k).getD ""

/-- `pin`, the challenge ID with special-case treatment
(testserver.ChallengePIN). -/
def ChallengePIN : String := "pin"

/-- `Job.isAnswered`: does some supplied answer match the challenge ID
and expected value? -/
def isAnswered (j : Job) (id val : String) : Bool :=
  j.suppliedAnswers.any fun a => a.id == id && a.value == val

/-- The body of `progressJob`'s requirement loop for one ChallengeMap
entry `(id, val)`: an unmet requirement sets `NeedsAnswers`, and an unmet
PIN additionally records the `user_wrong_pin` / `connector_field_reset`
problem pair and blanks every supplied PIN value. -/
def checkChallenge (j : Job) (kv : String × String) : Job :=
  if isAnswered j kv.1 kv.2 then j
  else if kv.1 = ChallengePIN then
    { j with
      needsAnswers := true,
      problems := j.problems ++
        [{ code := "user_wrong_pin" },
         { code := "connector_field_reset", fieldKey := some ChallengePIN }],
      suppliedAnswers := j.suppliedAnswers.map fun a =>
        if a.id = ChallengePIN then { a with value := "" } else a }
  else { j with needsAnswers := true }

/-- The user table (`Server.Users`), a Go map indexed by user ID. -/
abbrev UserTable := List (String × User)

/-- The `stored` map of `updateStoredAnswers` as first built from the
answers already on record (`for _, a := range user.StoredAnswers[...]`),
keyed by challenge ID. -/
def buildStored (prev : List ChallengeAnswer) :
    List (String × ChallengeAnswer) :=
  prev.foldl (fun m a => tableSet m a.id a) []

/-- The second loop of `updateStoredAnswers`: overwrite the map with each
submitted answer that carries `Store=true` (last write wins). -/
def insertStored (m : List (String × ChallengeAnswer))
    (answers : List ChallengeAnswer) : List (String × ChallengeAnswer) :=
  answers.foldl (fun m a => if a.store then tableSet m a.id a else m) m

/-- `Server.updateStoredAnswers`: persist the `Store=true` answers of a
submission into the user's stored answers for the provider, merged by
challenge ID (last write wins). -/
def updateStoredAnswers (users : UserTable) (userID providerID : String)
    (answers : List ChallengeAnswer) : UserTable :=
  match List.lookup userID users with
  | none => users
  | some user =>
    let prev := (List.lookup providerID user.storedAnswers).getD []
    let stored1 := insertStored (buildStored prev) answers
    let user1 := { user with
      storedAnswers :=
        tableSet user.storedAnswers providerID (stored1.map Prod.snd) }
    tableSet users user1.id user1

/-- The stored answers a user holds for a provider (empty when the user
or provider is unknown). -/
def userStored (users : UserTable) (userID providerID : String) :
    List ChallengeAnswer :=
  match List.lookup userID users with
  | some u => (List.lookup providerID u.storedAnswers).getD []
  | none => []

/-- The job-mutating part of `Server.progressJob` on an unfinished job:
append the new answers, reset `NeedsAnswers` and `Problems`, run the
requirement loop over the catalog's ChallengeMap, and move the stage —
`Challenge` while answers are missing, else `Imported` with
`Finished=true`. -/
def progressJobAdvance (j : Job) (answers : List ChallengeAnswer) : Job :=
  let j1 : Job := { j with
    suppliedAnswers := j.suppliedAnswers ++ answers,
    needsAnswers := false,
    problems := [] }
  let j2 := j1.accessDetails.challengeMap.foldl checkChallenge j1
  if j2.needsAnswers then { j2 with stage := .challenge }
  else { j2 with stage := .imported, finished := true }

/-- The user-mutating tail of `Server.progressJob`: for Refresh actions
the user table is untouched; otherwise the provider's fixture access,
transactions, scheduled and repeated transactions are appended to the
owning user.  (As in the source, this runs on every round of an
unfinished Create job, with no success guard.) -/
def progressJobImport (users : UserTable) (j3 : Job) : UserTable :=
  if j3.jobAction = .refresh then users
  else
    match List.lookup j3.userID users with
    | none => users
    | some user =>
      let user1 := { user with
        accesses := user.accesses ++ [j3.accessDetails.access],
        transactions := user.transactions ++ j3.accessDetails.transactions,
        repeatedTransactions :=
          user.repeatedTransactions ++ j3.accessDetails.repeatedTransactions,
        scheduledTransactions :=
          user.scheduledTransactions ++ j3.accessDetails.scheduledTransactions }
      tableSet users user1.id user1

/-- `Server.progressJob`: one round of the job state machine.  Finished
jobs are immutable.  Otherwise: persist `Store=true` answers, advance the
job, and run the import tail on the user table. -/
def progressJob (users : UserTable) (j : Job)
    (answers : List ChallengeAnswer) : UserTable × Job :=
  if j.finished then (users, j)
  else
    let users1 := updateStoredAnswers users j.userID j.providerID answers
    let j3 := progressJobAdvance j answers
    (progressJobImport users1 j3, j3)

/-- The first half of `Server.newJob`: the fresh job record at the
`Unauthenticated` stage (ID generation abstracted into the `id`
parameter); a Refresh job pre-seeds its supplied answers from the user's
stored answers for the provider. -/
def newJobBase (users : UserTable) (id userID providerID : String)
    (action : JobAction) : Job :=
  let job0 : Job :=
    { id := id, userID := userID, providerID := providerID,
      stage := .unauthenticated, jobAction := action }
  if action = .refresh then
    match List.lookup userID users with
    | some user =>
      let stored := (List.lookup providerID user.storedAnswers).getD []
      if stored.length > 0 then
        { job0 with suppliedAnswers := job0.suppliedAnswers ++ stored }
      else job0
    | none => job0
  else job0

/-- The remainder of `Server.newJob`: without access details the job is
born finished at the `Problem` stage with `unknown_provider`; otherwise
the catalog entry is attached and one `progressJob` round runs
immediately with the creation-time answers. -/
def newJob (users : UserTable) (id userID providerID : String)
    (answers : List ChallengeAnswer) (action : JobAction)
    (adOpt : Option AccessDetails) : UserTable × Job :=
  let job1 := newJobBase users id userID providerID action
  match adOpt with
  | none =>
    (users, { job1 with stage := .problem,
                        problems := job1.problems ++ [{ code := "unknown_provider" }],
                        finished := true })
  | some ad => progressJob users { job1 with accessDetails := ad } answers

/-- One authentication method in step data (bosgo.AuthMethod). -/
structure AuthMethod where
  id : String
  deriving DecidableEq

/-- `bosgo.TANTypeMobile`, the TAN type stamped into step data on the
SelectAuthMethod transition; only its identity matters here. -/
def TANTypeMobile : String := "mobile"

/-- Step data (bosgo.TransferStepData: the fields the server writes). -/
structure TransferStepData where
  challengeMessage : String := ""
  authMethods : List AuthMethod := []
  tanType : String := ""
  deriving DecidableEq

/-- A transfer step `{Intent, optional StepData}` (bosgo.TransferStep). -/
structure TransferStep where
  intent : TransferIntent := .empty
  data : Option TransferStepData := none
  deriving DecidableEq

/-- The cleared step `bosgo.TransferStep{}`. -/
def emptyStep : TransferStep := {}

/-- The wire representation of a transfer (bosgo.Transfer: the fields the
server touches).  `EntryDate`/`SettlementDate` are abstract instants. -/
structure Transfer where
  id : String := ""
  state : TransferState := .ongoing
  version : Int := 0
  step : TransferStep := {}
  errors : List Problem := []
  entryDate : Nat := 0
  settlementDate : Nat := 0
  deriving DecidableEq

/-- One transfer authorization order (testserver.TransferOrder). -/
structure TransferOrder where
  userID : String := ""
  typ : TransferType := .regular
  transfer : Transfer := {}
  accessDetails : AccessDetails := {}
  confirmSimilar : Bool := false
  deriving DecidableEq

/-- The `ProvideCredentials` case body of `progressTransfer` (also run by
fallthrough from the `Init` case): a combined answer with ID `"pin"`
matching the catalog's PIN moves to `SelectAuthMethod`, publishes the
auth-method list and clears the errors; otherwise
`fi_invalid_loginname_pin` is recorded and the intent stays. -/
def provideCredentialsBody (tr : TransferOrder)
    (combined : List ChallengeAnswer) : TransferOrder :=
  let tr1 : TransferOrder :=
    { tr with transfer := { tr.transfer with state := .ongoing } }
  if combined.any (fun a =>
      a.id == "pin" && a.value == mapGetD tr1.accessDetails.challengeMap "pin") then
    { tr1 with transfer := { tr1.transfer with
        step := { intent := .selectAuthMethod,
                  data := some { tanType := TANTypeMobile,
                                 authMethods := tr1.accessDetails.transferAuths.map
                                   fun ta => { id := ta.method } } },
        errors := [] } }
  else
    { tr1 with transfer := { tr1.transfer with
        errors := tr1.transfer.errors ++ [{ code := "fi_invalid_loginname_pin" }],
        step := { intent := .provideCredentials } } }

/-- The `SelectAuthMethod` scan: the first combined answer with ID
`"auth_method"` whose value matches a configured method, returning that
method's TransferAuth. -/
def findAuthMatch (auths : List TransferAuth) :
    List ChallengeAnswer → Option TransferAuth
  | [] => none
  | a :: rest =>
    if a.id == "auth_method" then
      match auths.find? (fun ta => a.value == ta.method) with
      | some ta => some ta
      | none => findAuthMatch auths rest
    else findAuthMatch auths rest

/-- The `ProvideChallengeAnswer` scan: some combined answer with ID
`"tan"` matches some configured method's expected answer. -/
def tanMatches (auths : List TransferAuth)
    (combined : List ChallengeAnswer) : Bool :=
  combined.any fun a => a.id == "tan" && auths.any fun ta => a.value == ta.answer

/-- The user's stored answers for the order's provider, merged into every
`progressTransfer` round (the `u, _ := s.GetUser(...)` prologue; a
missing user contributes none). -/
def storedAnswersFor (users : UserTable) (tr : TransferOrder) :
    List ChallengeAnswer :=
  match List.lookup tr.userID users with
  | some u => (List.lookup tr.accessDetails.access.providerID u.storedAnswers).getD []
  | none => []

/-- `Server.progressTransfer`: one round of the transfer state machine,
dispatching on the current intent over the submitted answers merged with
the user's stored answers for the provider.  The `confirm` flag is
accepted and ignored, as in the source. -/
def progressTransfer (users : UserTable) (tr : TransferOrder)
    (confirm : Bool) (answers : List ChallengeAnswer) (now : Nat) :
    TransferOrder :=
  let combined := answers ++ storedAnswersFor users tr
  match tr.transfer.step.intent with
  | .init =>
    let tr1 : TransferOrder :=
      { tr with transfer := { tr.transfer with state := .ongoing } }
    if tr1.confirmSimilar then
      { tr1 with transfer := { tr1.transfer with
          step := { intent := .confirmSimilarTransfer } } }
    else
      let tr2 : TransferOrder :=
        { tr1 with transfer := { tr1.transfer with
            step := { intent := .provideCredentials } } }
      if combined.isEmpty then tr2 else provideCredentialsBody tr2 combined
  | .provideCredentials => provideCredentialsBody tr combined
  | .selectAuthMethod =>
    let tr1 : TransferOrder :=
      { tr with transfer := { tr.transfer with state := .ongoing } }
    match findAuthMatch tr1.accessDetails.transferAuths combined with
    | some ta =>
      { tr1 with transfer := { tr1.transfer with
          step := { intent := .provideChallengeAnswer,
                    data := some { challengeMessage := ta.message } } } }
    | none =>
      { tr1 with transfer := { tr1.transfer with
          errors := tr1.transfer.errors ++ [{ code := "fi_account_blocked" }],
          state := .failed,
          step := emptyStep } }
  | .provideChallengeAnswer =>
    if tanMatches tr.accessDetails.transferAuths combined then
      { tr with transfer := { tr.transfer with
          state := .succeeded,
          step := emptyStep,
          entryDate := now,
          settlementDate := now } }
    else
      { tr with transfer := { tr.transfer with
          errors := tr.transfer.errors ++ [{ code := "fi_account_blocked" }],
          step := emptyStep } }
  | .confirmSimilarTransfer =>
    { tr with transfer := { tr.transfer with
        state := .ongoing,
        step := { intent := .provideCredentials } } }
  | .empty => tr

/-- `Server.newTransfer`: create a transfer order.  `adOpt` is the result
of the `Accesses[providerID]` catalog lookup; ID generation is abstracted
into the `id` parameter.  Without access details the order is born
`Failed` with `resource_not_found`; otherwise it starts `Ongoing` at the
`Init` intent and immediately runs one `progressTransfer` round. -/
def newTransfer (users : UserTable) (id userID : String)
    (typ : TransferType) (answers : List ChallengeAnswer)
    (confirmSimilar : Bool) (adOpt : Option AccessDetails) (now : Nat) :
    TransferOrder :=
  match adOpt with
  | none =>
    { userID := userID, typ := typ, confirmSimilar := confirmSimilar,
      transfer := { id := id, state := .failed,
                    errors := [{ code := "resource_not_found" }] } }
  | some ad =>
    let tr : TransferOrder :=
      { userID := userID, typ := typ, confirmSimilar := confirmSimilar,
        accessDetails := ad,
        transfer := { id := id, state := .ongoing,
                      step := { intent := .init } } }
    progressTransfer users tr false answers now

/-- The in-memory tables of the server that the two engines read and
write (testserver.Server; ID generation and sessions abstracted). -/
structure ServerState where
  users : UserTable := []
  jobs : List (String × Job) := []
  transfers : List (String × TransferOrder) := []
  recurringTransfers : List (String × TransferOrder) := []
  deriving DecidableEq

/-- `Server.getTransfer`: fetch an order from the table selected by the
transfer type. -/
def getTransfer (st : ServerState) (typ : TransferType) (id : String) :
    Option TransferOrder :=
  match typ with
  | .regular => List.lookup id st.transfers
  | .recurring => List.lookup id st.recurringTransfers

/-- `Server.setTransfer`: store an order back into the table selected by
its type, keyed by its transfer ID. -/
def setTransfer (st : ServerState) (tr : TransferOrder) : ServerState :=
  match tr.typ with
  | .regular =>
    { st with transfers := tableSet st.transfers tr.transfer.id tr }
  | .recurring =>
    { st with recurringTransfers :=
        tableSet st.recurringTransfers tr.transfer.id tr }

/-- The decoded body of `POST /v1/transfers/{id}`
(testserver.transferProcessParams). -/
structure ProcessParams where
  intent : TransferIntent := .empty
  version : Int := 0
  typ : TransferType := .regular
  confirm : Bool := false
  answers : List ChallengeAnswer := []

/-- `Server.handleTransferProcess` from the point where the request body
is decoded: resolve the order, run the version / intent / state checks
(each rejection answers with the order plus one inline problem and does
not write back), and otherwise run `progressTransfer` and store the
result.  A missing order answers `none` (the 404 path). -/
def handleTransferProcess (st : ServerState) (id : String)
    (p : ProcessParams) (now : Nat) : Option Transfer × ServerState :=
  match getTransfer st p.typ id with
  | none => (none, st)
  | some tr =>
    if p.version ≠ tr.transfer.version then
      (some { tr.transfer with
                errors := tr.transfer.errors ++ [{ code := "versions_mismatch" }] },
       st)
    else if p.intent ≠ tr.transfer.step.intent then
      (some { tr.transfer with
                errors := tr.transfer.errors ++ [{ code := "intents_mismatch" }] },
       st)
    else if tr.transfer.state ≠ .ongoing then
      (some { tr.transfer with
                errors := tr.transfer.errors ++
                  [{ code := "state_" ++ stateStr tr.transfer.state ++ "_unprocessable" }] },
       st)
    else
      let tr1 := progressTransfer st.users tr p.confirm p.answers now
      (some tr1.transfer, setTransfer st tr1)

/-- One unanswered challenge in a job-status response
(bosgo.ChallengeField: the fields the server writes). -/
structure ChallengeField where
  id : String
  previous : String
  deriving DecidableEq

/-- Account summary in a job-status response (bosgo.JobAccount). -/
structure JobAccount where
  id : Int
  name : String
  number : String
  iban : String
  deriving DecidableEq

/-- Access summary in a job-status response (bosgo.JobAccess). -/
structure JobAccess where
  id : Int
  providerID : String
  name : String
  accounts : List JobAccount
  deriving DecidableEq

/-- A job-status response (bosgo.JobStatus: the fields the server
writes).  `challenge` holds the `NextChallenges` list. -/
structure JobStatus where
  finished : Bool
  stage : JobStage
  uri : String
  challenge : Option (List ChallengeField) := none
  errors : List Problem := []
  access : Option JobAccess := none
  deriving DecidableEq

/-- `Server.jobStatus`: shape a job into its status response: unanswered
challenge IDs with the first previously supplied value, the job's
problems as errors, and the access summary once imported. -/
def jobStatus (job : Job) : JobStatus :=
  let base : JobStatus :=
    { finished := job.finished, stage := job.stage, uri := "/jobs/" ++ job.id }
  let withCh : JobStatus :=
    if job.needsAnswers then
      { base with challenge := some (job.accessDetails.challengeMap.map fun kv =>
          { id := kv.1,
            previous :=
              ((job.suppliedAnswers.find? fun a => a.id == kv.1).map
                (fun a => a.value)).getD "" }) }
    else base
  let withErr : JobStatus := { withCh with errors := job.problems }
  if job.stage = .imported then
    { withErr with access := some (
        { id := job.accessDetails.access.id,
          providerID := job.accessDetails.access.providerID,
          name := job.accessDetails.access.name,
          accounts := job.accessDetails.access.accounts.map fun ac =>
            { id := ac.id, name := ac.name, number := ac.number, iban := ac.iban } } : JobAccess) }
  else withErr

/-- `Server.handleJobStatus` from the point where the job is resolved:
when the catalog configures a non-empty StageProblems list for the job's
current stage, that list replaces the problems on a local copy of the
job, which is then shaped into the response; nothing is written back. -/
def handleJobStatus (st : ServerState) (id : String) :
    Option JobStatus × ServerState :=
  match List.lookup id st.jobs with
  | none => (none, st)
  | some job =>
    let probs := (List.lookup job.stage job.accessDetails.stageProblems).getD []
    let job1 := if probs.length > 0 then { job with problems := probs } else job
    (some (jobStatus job1), st)

/-- `Server.handleJobAnswer` from the point where the body is decoded:
run a `progressJob` round and write the job (and any user changes)
back. -/
def handleJobAnswer (st : ServerState) (id : String)
    (answers : List ChallengeAnswer) : Option JobStatus × ServerState :=
  match List.lookup id st.jobs with
  | none => (none, st)
  | some job =>
    let r := progressJob st.users job answers
    (some (jobStatus r.2),
     { st with users := r.1, jobs := tableSet st.jobs r.2.id r.2 })

/-! ## Concrete fixtures

A provider configured like the spec's end-to-end scenarios (§8): login
`"user"`, PIN `"1234"`, auth method `"901"` with TAN `"4321"`, and a user
`"u1"` owning no records yet. -/

/-- Scenario catalog entry for provider `"P1"`. -/
def adP1 : AccessDetails :=
  { access := { id := 1, providerID := "P1", name := "access P1",
                accounts := [{ id := 2, name := "Account 1",
                               number := "704357300", iban := "DE84" }] },
    transactions := [10, 11],
    scheduledTransactions := [12],
    repeatedTransactions := [13],
    challengeMap := [("login", "user"), ("pin", "1234")],
    transferAuths := [{ method := "901", message := "enter 4321 as tan",
                        answer := "4321" }] }

/-- The user table holding the single scenario user `"u1"`. -/
def usersA : UserTable := [("u1", { id := "u1" })]

/-- Scenario 3/4 walk-through: order creation (lands at
ProvideCredentials). -/
def trA0 : TransferOrder :=
  newTransfer usersA "t1" "u1" .regular [] false (some adP1) 0

/-- After the correct PIN round (lands at SelectAuthMethod). -/
def trA1 : TransferOrder :=
  progressTransfer usersA trA0 false [{ id := "pin", value := "1234" }] 0

/-- After the auth-method round (lands at ProvideChallengeAnswer). -/
def trA2 : TransferOrder :=
  progressTransfer usersA trA1 false [{ id := "auth_method", value := "901" }] 0

/-- After a wrong TAN `"0000"` (scenario 4's failure round). -/
def trA3 : TransferOrder :=
  progressTransfer usersA trA2 false [{ id := "tan", value := "0000" }] 0

/-- A further round on the failed order, which still has `State=Ongoing`
and the cleared (empty-intent) step. -/
def trA4 : TransferOrder := progressTransfer usersA trA3 false [] 0

/-! ## Association-table lemmas -/

theorem lookup_cons_self {α : Type} (t : List (String × α)) (k : String)
    (v : α) : List.lookup k ((k, v) :: t) = some v := by
  simp [List.lookup]

theorem lookup_cons_ne {α : Type} (t : List (String × α)) (k k' : String)
    (v : α) (h : k' ≠ k) :
    List.lookup k' ((k, v) :: t) = List.lookup k' t := by
  have hb : (k' == k) = false := beq_eq_false_iff_ne.mpr h
  simp [List.lookup, hb]

theorem tableSet_cons_eq {α : Type} (rest : List (String × α))
    (k : String) (v0 v : α) :
    tableSet ((k, v0) :: rest) k v = (k, v) :: rest := by
  simp [tableSet]

theorem tableSet_cons_ne {α : Type} (rest : List (String × α))
    (k0 k : String) (v0 v : α) (h : k0 ≠ k) :
    tableSet ((k0, v0) :: rest) k v = (k0, v0) :: tableSet rest k v := by
  simp [tableSet, h]

theorem lookup_tableSet_self {α : Type} (t : List (String × α)) (k : String)
    (v : α) : List.lookup k (tableSet t k v) = some v := by
  induction t with
  | nil => exact lookup_cons_self _ _ _
  | cons p rest ih =>
    obtain ⟨k0, v0⟩ := p
    by_cases hk : k0 = k
    · subst hk
      rw [tableSet_cons_eq]
      exact lookup_cons_self _ _ _
    · rw [tableSet_cons_ne _ _ _ _ _ hk, lookup_cons_ne _ _ _ _ (Ne.symm hk)]
      exact ih

theorem lookup_tableSet_ne {α : Type} (t : List (String × α))
    (k k' : String) (v : α) (h : k' ≠ k) :
    List.lookup k' (tableSet t k v) = List.lookup k' t := by
  induction t with
  | nil =>
    show List.lookup k' [(k, v)] = List.lookup k' ([] : List (String × α))
    rw [lookup_cons_ne _ _ _ _ h]
  | cons p rest ih =>
    obtain ⟨k0, v0⟩ := p
    by_cases hk : k0 = k
    · subst hk
      rw [tableSet_cons_eq, lookup_cons_ne _ _ _ _ h, lookup_cons_ne _ _ _ _ h]
    · rw [tableSet_cons_ne _ _ _ _ _ hk]
      by_cases hk' : k' = k0
      · subst hk'
        rw [lookup_cons_self, lookup_cons_self]
      · rw [lookup_cons_ne _ _ _ _ hk', lookup_cons_ne _ _ _ _ hk']
        exact ih

/-! ## Basic facts about `progressTransfer` -/

theorem provideCredentialsBody_skeleton (tr : TransferOrder)
    (combined : List ChallengeAnswer) :
    (provideCredentialsBody tr combined).transfer.id = tr.transfer.id ∧
    (provideCredentialsBody tr combined).transfer.version = tr.transfer.version ∧
    (provideCredentialsBody tr combined).typ = tr.typ := by
  simp only [provideCredentialsBody]
  split <;> exact ⟨rfl, rfl, rfl⟩

theorem progressTransfer_skeleton (users : UserTable)
    (tr : TransferOrder) (confirm : Bool) (answers : List ChallengeAnswer)
    (now : Nat) :
    (progressTransfer users tr confirm answers now).transfer.id =
        tr.transfer.id ∧
    (progressTransfer users tr confirm answers now).transfer.version =
        tr.transfer.version ∧
    (progressTransfer users tr confirm answers now).typ = tr.typ := by
  unfold progressTransfer
  cases h : tr.transfer.step.intent <;> dsimp only
  case init =>
    split
    · exact ⟨rfl, rfl, rfl⟩
    · split
      · exact ⟨rfl, rfl, rfl⟩
      · exact provideCredentialsBody_skeleton _ _
  case provideCredentials => exact provideCredentialsBody_skeleton _ _
  case selectAuthMethod => split <;> exact ⟨rfl, rfl, rfl⟩
  case provideChallengeAnswer => split <;> exact ⟨rfl, rfl, rfl⟩
  case confirmSimilarTransfer => exact ⟨rfl, rfl, rfl⟩
  case empty => exact ⟨rfl, rfl, rfl⟩

theorem progressTransfer_preserves_id (users : UserTable)
    (tr : TransferOrder) (confirm : Bool) (answers : List ChallengeAnswer)
    (now : Nat) :
    (progressTransfer users tr confirm answers now).transfer.id =
      tr.transfer.id :=
  (progressTransfer_skeleton users tr confirm answers now).1

theorem progressTransfer_preserves_version (users : UserTable)
    (tr : TransferOrder) (confirm : Bool) (answers : List ChallengeAnswer)
    (now : Nat) :
    (progressTransfer users tr confirm answers now).transfer.version =
      tr.transfer.version :=
  (progressTransfer_skeleton users tr confirm answers now).2.1

theorem progressTransfer_preserves_typ (users : UserTable)
    (tr : TransferOrder) (confirm : Bool) (answers : List ChallengeAnswer)
    (now : Nat) :
    (progressTransfer users tr confirm answers now).typ = tr.typ :=
  (progressTransfer_skeleton users tr confirm answers now).2.2

theorem getTransfer_setTransfer_self (st : ServerState) (tr : TransferOrder) :
    getTransfer (setTransfer st tr) tr.typ tr.transfer.id = some tr := by
  unfold getTransfer setTransfer
  cases h : tr.typ <;> simp [lookup_tableSet_self]

/-! ## Claim C10 -/

/-- C10: reading a job's status never mutates stored server state: the
whole `ServerState` (in particular the Jobs table) after
`handleJobStatus` is the state before it; the StageProblems substitution
happens on a local copy only. -/
theorem handleJobStatus_leaves_state_unchanged (st : ServerState)
    (id : String) : (handleJobStatus st id).2 = st := by
  unfold handleJobStatus
  cases List.lookup id st.jobs <;> simp

/-! ## Claim C1 -/

/-- C1 (refuted; the code never increments `Version`): for every stored
transfer order and every `handleTransferProcess` call — including those
that pass the version, intent and state checks and run
`progressTransfer` — the stored order's `Version` after the call equals
the `Version` before the call; it is never incremented. -/
theorem processTransfer_never_increments_version (st : ServerState)
    (id : String) (p : ProcessParams) (now : Nat) (tr : TransferOrder)
    (h : getTransfer st p.typ id = some tr) (hid : tr.transfer.id = id)
    (htyp : tr.typ = p.typ) :
    ∃ tr1, getTransfer (handleTransferProcess st id p now).2 p.typ id =
        some tr1 ∧ tr1.transfer.version = tr.transfer.version := by
  unfold handleTransferProcess
  rw [h]
  dsimp only
  by_cases h1 : p.version = tr.transfer.version
  · rw [if_neg (not_not_intro h1)]
    by_cases h2 : p.intent = tr.transfer.step.intent
    · rw [if_neg (not_not_intro h2)]
      by_cases h3 : tr.transfer.state = TransferState.ongoing
      · rw [if_neg (not_not_intro h3)]
        dsimp only
        refine ⟨progressTransfer st.users tr p.confirm p.answers now, ?_,
          progressTransfer_preserves_version _ _ _ _ _⟩
        have e1 : (progressTransfer st.users tr p.confirm p.answers now).typ =
            p.typ := by
          rw [progressTransfer_preserves_typ]; exact htyp
        have e2 :
            (progressTransfer st.users tr p.confirm p.answers now).transfer.id =
              id := by
          rw [progressTransfer_preserves_id]; exact hid
        rw [← e1, ← e2]
        exact getTransfer_setTransfer_self st _
      · rw [if_pos h3]
        exact ⟨tr, h, rfl⟩
    · rw [if_pos h2]
      exact ⟨tr, h, rfl⟩
  · rw [if_pos h1]
    exact ⟨tr, h, rfl⟩

/-- Witness for C1: the scenario order at ProvideCredentials, processed
with the matching version, intent and a correct PIN — the round mutates
the order (it advances to SelectAuthMethod) yet the stored version is
still the old `0`. -/
theorem processTransfer_never_increments_version_witness :
    (getTransfer { users := usersA, transfers := [("t1", trA0)] } .regular "t1" =
        some trA0 ∧ trA0.transfer.id = "t1" ∧ trA0.typ = .regular) ∧
    (∃ tr1,
      getTransfer
        (handleTransferProcess { users := usersA, transfers := [("t1", trA0)] }
          "t1"
          { intent := .provideCredentials, version := 0, typ := .regular,
            answers := [{ id := "pin", value := "1234" }] } 0).2
        .regular "t1" = some tr1 ∧
      tr1.transfer.version = trA0.transfer.version) := by
  constructor
  · exact ⟨by decide, by decide, by decide⟩
  · exact processTransfer_never_increments_version
      { users := usersA, transfers := [("t1", trA0)] } "t1"
      { intent := .provideCredentials, version := 0, typ := .regular,
        answers := [{ id := "pin", value := "1234" }] }
      0 trA0 (by decide) (by decide) (by decide)

/-! ## Claim C3 -/

/-- C3: a `ProcessTransfer` call with a stale version is answered with
`versions_mismatch`; with a matching version but wrong intent, with
`intents_mismatch`; with matching version and intent but a state other
than `Ongoing`, with `state_<state>_unprocessable` — and in all three
rejection cases the server state (in particular the stored order) is left
unchanged, the problem being carried only on the response. -/
theorem processTransfer_rejection_cases (st : ServerState) (id : String)
    (p : ProcessParams) (now : Nat) (tr : TransferOrder)
    (h : getTransfer st p.typ id = some tr) :
    (p.version ≠ tr.transfer.version →
      handleTransferProcess st id p now =
        (some { tr.transfer with
                  errors := tr.transfer.errors ++ [{ code := "versions_mismatch" }] },
         st)) ∧
    (p.version = tr.transfer.version → p.intent ≠ tr.transfer.step.intent →
      handleTransferProcess st id p now =
        (some { tr.transfer with
                  errors := tr.transfer.errors ++ [{ code := "intents_mismatch" }] },
         st)) ∧
    (p.version = tr.transfer.version → p.intent = tr.transfer.step.intent →
      tr.transfer.state ≠ .ongoing →
      handleTransferProcess st id p now =
        (some { tr.transfer with
                  errors := tr.transfer.errors ++
                    [{ code := "state_" ++ stateStr tr.transfer.state ++ "_unprocessable" }] },
         st)) := by
  unfold handleTransferProcess
  rw [h]
  dsimp only
  refine ⟨fun h1 => ?_, fun h1 h2 => ?_, fun h1 h2 h3 => ?_⟩
  · rw [if_pos h1]
  · rw [if_neg (not_not_intro h1), if_pos h2]
  · rw [if_neg (not_not_intro h1), if_neg (not_not_intro h2), if_pos h3]

/-- The scenario order after selecting a non-configured auth method:
terminally `Failed` with `fi_account_blocked` and a cleared step. -/
def trB : TransferOrder :=
  progressTransfer usersA trA1 false [{ id := "auth_method", value := "999" }] 0

/-- A server state holding the ProvideCredentials-stage order. -/
def stW1 : ServerState := { users := usersA, transfers := [("t1", trA0)] }

/-- A server state holding the failed order `trB`. -/
def stW3 : ServerState := { users := usersA, transfers := [("t1", trB)] }

/-- Witness for C3: a stale version (5 ≠ 0) yields `versions_mismatch`; a
matching version with the wrong intent yields `intents_mismatch`; on the
failed order `trB`, matching version and intent yield
`state_failed_unprocessable`; the state is returned unchanged each
time. -/
theorem processTransfer_rejection_cases_witness :
    (handleTransferProcess stW1 "t1"
        { intent := .provideCredentials, version := 5, typ := .regular } 0 =
      (some { trA0.transfer with
                errors := trA0.transfer.errors ++ [{ code := "versions_mismatch" }] },
       stW1)) ∧
    (handleTransferProcess stW1 "t1"
        { intent := .selectAuthMethod, version := 0, typ := .regular } 0 =
      (some { trA0.transfer with
                errors := trA0.transfer.errors ++ [{ code := "intents_mismatch" }] },
       stW1)) ∧
    (handleTransferProcess stW3 "t1"
        { intent := .empty, version := 0, typ := .regular } 0 =
      (some { trB.transfer with
                errors := trB.transfer.errors ++
                  [{ code := "state_failed_unprocessable" }] },
       stW3)) := by
  refine ⟨?_, ?_, ?_⟩
  · exact (processTransfer_rejection_cases stW1 "t1"
      { intent := .provideCredentials, version := 5, typ := .regular } 0 trA0
      (by decide)).1 (by decide)
  · exact (processTransfer_rejection_cases stW1 "t1"
      { intent := .selectAuthMethod, version := 0, typ := .regular } 0 trA0
      (by decide)).2.1 (by decide) (by decide)
  · have := (processTransfer_rejection_cases stW3 "t1"
      { intent := .empty, version := 0, typ := .regular } 0 trB
      (by decide)).2.2 (by decide) (by decide) (by decide)
    rw [this]
    have hst : stateStr trB.transfer.state = "failed" := by decide
    rw [hst]
    rfl

/-! ## Claim C5 -/

/-- A fresh Create job for provider `"P1"` before its first round. -/
def jobC : Job :=
  { id := "j1", userID := "u1", providerID := "P1",
    accessDetails := adP1, jobAction := .create }

/-- C5 (refuted; the import is not guarded by the success check): running
a `progressJob` round with no answers on a fresh Create job leaves the
job unfinished and still needing answers — yet the provider's fixture
access, transactions, scheduled and repeated transactions are already
appended to the owning user's records in that same round. -/
theorem progressJob_imports_fixtures_before_finished :
    (progressJob usersA jobC []).2.needsAnswers = true ∧
    (progressJob usersA jobC []).2.finished = false ∧
    (progressJob usersA jobC []).2.stage = .challenge ∧
    (List.lookup "u1" (progressJob usersA jobC []).1).map User.accesses =
      some [adP1.access] ∧
    (List.lookup "u1" (progressJob usersA jobC []).1).map User.transactions =
      some adP1.transactions ∧
    (List.lookup "u1" (progressJob usersA jobC []).1).map
        User.scheduledTransactions = some adP1.scheduledTransactions ∧
    (List.lookup "u1" (progressJob usersA jobC []).1).map
        User.repeatedTransactions = some adP1.repeatedTransactions ∧
    (List.lookup "u1" usersA).map User.accesses = some [] := by
  decide

/-! ## Claim C9 -/

/-- A Challenge-stage job carrying naturally computed problems (the wrong
PIN pair) whose catalog configures a synthetic problem for the Challenge
stage. -/
def jobD : Job :=
  { id := "j2", userID := "u1", providerID := "P1", stage := .challenge,
    needsAnswers := true,
    problems := [{ code := "user_wrong_pin" },
                 { code := "connector_field_reset", fieldKey := some ChallengePIN }],
    accessDetails := { adP1 with stageProblems :=
      [(JobStage.challenge,
        [{ code := "fi_accountnumber_10_digits_pin_between_5_to_10" }])] },
    jobAction := .refresh }

/-- A server state holding `jobD`. -/
def stD : ServerState := { users := usersA, jobs := [("j2", jobD)] }

/-- Counterexample for C9: the job naturally carries `user_wrong_pin`,
but with a non-empty StageProblems list configured for its stage the
status response reports only the configured problem — the natural
problems are dropped, so the overlay is not an additive union. -/
theorem handleJobStatus_drops_natural_problems :
    ({ code := "user_wrong_pin" } : Problem) ∈ jobD.problems ∧
    (handleJobStatus stD "j2").1.map JobStatus.errors =
      some [{ code := "fi_accountnumber_10_digits_pin_between_5_to_10" }] ∧
    (handleJobStatus stD "j2").1.map
        (fun s => s.errors.contains ({ code := "user_wrong_pin" } : Problem)) =
      some false := by
  decide

/-- The errors of a shaped job-status response are exactly the job's
problems. -/
theorem jobStatus_errors (j : Job) : (jobStatus j).errors = j.problems := by
  simp only [jobStatus]
  split <;> split <;> rfl

/-- C9 as amended: the status response reports the configured
StageProblems for the job's current stage in place of the naturally
computed problems whenever that configured list is non-empty, and the
natural problems only when it is empty — substitution, not union. -/
theorem handleJobStatus_reports_substituted_problems (st : ServerState)
    (id : String) (job : Job) (h : List.lookup id st.jobs = some job) :
    ∃ s, (handleJobStatus st id).1 = some s ∧
      s.errors =
        (if (List.lookup job.stage job.accessDetails.stageProblems).getD [] = []
         then job.problems
         else (List.lookup job.stage job.accessDetails.stageProblems).getD []) := by
  unfold handleJobStatus
  rw [h]
  dsimp only
  refine ⟨_, rfl, ?_⟩
  by_cases hp : (List.lookup job.stage job.accessDetails.stageProblems).getD [] = []
  · rw [if_pos hp]
    have hz : ((List.lookup job.stage job.accessDetails.stageProblems).getD []).length = 0 := by
      rw [hp]; rfl
    rw [if_neg (by omega)]
    exact jobStatus_errors job
  · rw [if_neg hp]
    have hz : 0 < ((List.lookup job.stage job.accessDetails.stageProblems).getD []).length :=
      List.length_pos.mpr hp
    rw [if_pos hz]
    exact jobStatus_errors _

/-- Witness for C9 (amended): on `jobD` the configured Challenge-stage
problem list is non-empty and is what the response reports. -/
theorem handleJobStatus_reports_substituted_problems_witness :
    ∃ s, (handleJobStatus stD "j2").1 = some s ∧
      s.errors =
        (if (List.lookup jobD.stage jobD.accessDetails.stageProblems).getD [] = []
         then jobD.problems
         else (List.lookup jobD.stage jobD.accessDetails.stageProblems).getD []) :=
  handleJobStatus_reports_substituted_problems stD "j2" jobD (by decide)

/-! ## Claim C2 -/

/-- The stage ordering Unauthenticated → Challenge → {Imported |
Problem}. -/
def stageRank : JobStage → Nat
  | .unauthenticated => 0
  | .challenge => 1
  | .imported => 2
  | .problem => 2

theorem foldl_checkChallenge_frame (l : List (String × String)) (j : Job) :
    (l.foldl checkChallenge j).finished = j.finished ∧
    (l.foldl checkChallenge j).stage = j.stage ∧
    (l.foldl checkChallenge j).jobAction = j.jobAction := by
  induction l generalizing j with
  | nil => exact ⟨rfl, rfl, rfl⟩
  | cons kv rest ih =>
    have hstep : (checkChallenge j kv).finished = j.finished ∧
        (checkChallenge j kv).stage = j.stage ∧
        (checkChallenge j kv).jobAction = j.jobAction := by
      simp only [checkChallenge]
      split
      · exact ⟨rfl, rfl, rfl⟩
      · split <;> exact ⟨rfl, rfl, rfl⟩
    obtain ⟨h1, h2, h3⟩ := ih (checkChallenge j kv)
    exact ⟨h1.trans hstep.1, h2.trans hstep.2.1, h3.trans hstep.2.2⟩

theorem progressJobAdvance_cases (j : Job) (answers : List ChallengeAnswer) :
    ((progressJobAdvance j answers).stage = .challenge ∧
     (progressJobAdvance j answers).finished = j.finished) ∨
    ((progressJobAdvance j answers).stage = .imported ∧
     (progressJobAdvance j answers).finished = true) := by
  simp only [progressJobAdvance]
  split
  · left
    constructor
    · rfl
    · show (List.foldl checkChallenge _ _).finished = j.finished
      exact (foldl_checkChallenge_frame _ _).1
  · right
    exact ⟨rfl, rfl⟩

theorem progressJob_of_finished (users : UserTable) (j : Job)
    (answers : List ChallengeAnswer) (h : j.finished = true) :
    progressJob users j answers = (users, j) := by
  unfold progressJob
  rw [if_pos h]

theorem progressJob_snd (users : UserTable) (j : Job)
    (answers : List ChallengeAnswer) (h : j.finished = false) :
    (progressJob users j answers).2 = progressJobAdvance j answers := by
  unfold progressJob
  rw [if_neg (by simp [h])]

/-- The jobs constructible through the server API: created by `newJob`
(access creation and refresh), then driven only by `progressJob` rounds
(`handleJobAnswer`). -/
inductive ReachableJob : Job → Prop where
  | created : ∀ users id userID providerID answers action adOpt,
      ReachableJob (newJob users id userID providerID answers action adOpt).2
  | step : ∀ users j answers, ReachableJob j →
      ReachableJob (progressJob users j answers).2

theorem newJobBase_fresh (users : UserTable) (id userID providerID : String)
    (action : JobAction) :
    (newJobBase users id userID providerID action).finished = false ∧
    (newJobBase users id userID providerID action).stage = .unauthenticated := by
  simp only [newJobBase]
  split
  · split
    · split <;> exact ⟨rfl, rfl⟩
    · exact ⟨rfl, rfl⟩
  · exact ⟨rfl, rfl⟩

theorem progressJob_snd_cases (users : UserTable) (j : Job)
    (answers : List ChallengeAnswer) (h : j.finished = false) :
    (progressJob users j answers).2.finished = true ∨
    (progressJob users j answers).2.stage = .challenge := by
  rw [progressJob_snd _ _ _ h]
  rcases progressJobAdvance_cases j answers with ⟨hs, _⟩ | ⟨_, hf⟩
  · right; exact hs
  · left; exact hf

/-- Well-formedness invariant: an unfinished reachable job sits at the
Unauthenticated or Challenge stage. -/
theorem reachableJob_unfinished_stage (j : Job) (hre : ReachableJob j) :
    j.finished = false → j.stage = .unauthenticated ∨ j.stage = .challenge := by
  induction hre with
  | created users id userID providerID answers action adOpt =>
    intro hfin
    cases adOpt with
    | none =>
      exfalso
      have : (newJob users id userID providerID answers action none).2.finished = true := rfl
      rw [hfin] at this
      cases this
    | some ad =>
      have hf1 : (Job.finished
          { newJobBase users id userID providerID action with
              accessDetails := ad }) = false :=
        (newJobBase_fresh users id userID providerID action).1
      have heq : (newJob users id userID providerID answers action (some ad)).2 =
          (progressJob users
            { newJobBase users id userID providerID action with
                accessDetails := ad } answers).2 := rfl
      rw [heq] at hfin ⊢
      rcases progressJob_snd_cases users _ answers hf1 with hft | hs
      · rw [hft] at hfin; cases hfin
      · right; exact hs
  | step users j answers hre ih =>
    intro hfin
    by_cases hf : j.finished = true
    · rw [progressJob_of_finished _ _ _ hf] at hfin ⊢
      rw [hfin] at hf
      cases hf
    · have hf0 : j.finished = false := by simpa using hf
      rcases progressJob_snd_cases users j answers hf0 with hft | hs
      · rw [hft] at hfin; cases hfin
      · right; exact hs

/-- C2: a finished job is frozen — a further `progressJob` round with any
answers returns the job and the user table both literally unchanged (so
Stage, SuppliedAnswers, Problems, NeedsAnswers and the owning user's
records are all untouched) — and for every reachable job a round never
decreases the stage in the order Unauthenticated → Challenge →
{Imported | Problem}. -/
theorem progressJob_frozen_when_finished_and_stage_monotone
    (users : UserTable) (j : Job) (answers : List ChallengeAnswer)
    (hre : ReachableJob j) :
    (j.finished = true → progressJob users j answers = (users, j)) ∧
    stageRank j.stage ≤ stageRank (progressJob users j answers).2.stage := by
  constructor
  · exact progressJob_of_finished users j answers
  · by_cases hf : j.finished = true
    · rw [progressJob_of_finished _ _ _ hf]
    · have hf0 : j.finished = false := by simpa using hf
      rw [progressJob_snd _ _ _ hf0]
      rcases reachableJob_unfinished_stage j hre hf0 with hs | hs <;>
        rcases progressJobAdvance_cases j answers with ⟨ha, _⟩ | ⟨ha, _⟩ <;>
          rw [hs, ha] <;> simp [stageRank]

/-- A reachable finished job: creation against an unknown provider. -/
def jobE : Job := (newJob usersA "j9" "u1" "nope" [] .create none).2

/-- Witness for C2: `jobE` is reachable and finished (Problem stage); the
theorem instantiates to: a further round is the identity on the pair, and
the stage rank does not decrease. -/
theorem progressJob_frozen_when_finished_and_stage_monotone_witness :
    ((jobE.finished = true → progressJob usersA jobE [] = (usersA, jobE)) ∧
     stageRank jobE.stage ≤ stageRank (progressJob usersA jobE []).2.stage) ∧
    jobE.finished = true ∧ jobE.stage = .problem :=
  ⟨progressJob_frozen_when_finished_and_stage_monotone usersA jobE []
     (ReachableJob.created usersA "j9" "u1" "nope" [] .create none),
   by decide, by decide⟩

/-! ## Claim C7 -/

/-- The scenario order after the correct TAN `"4321"` at instant 7. -/
def trA3ok : TransferOrder :=
  progressTransfer usersA trA2 false [{ id := "tan", value := "4321" }] 7

/-- Counterexample for C7: scenario 4's wrong TAN `"0000"` at
ProvideChallengeAnswer appends `fi_account_blocked` but leaves
`State=Ongoing` (not `Failed`), and a further ProcessTransfer with the
correct version and the ProvideChallengeAnswer intent is rejected with
`intents_mismatch` (the cleared step's intent no longer matches), not
`state_failed_unprocessable`. -/
theorem progressTransfer_wrong_tan_not_failed :
    trA2.transfer.step.intent = .provideChallengeAnswer ∧
    trA3.transfer.errors = [{ code := "fi_account_blocked" }] ∧
    trA3.transfer.state = .ongoing ∧
    ¬ trA3.transfer.state = .failed ∧
    (handleTransferProcess { users := usersA, transfers := [("t1", trA3)] }
        "t1" { intent := .provideChallengeAnswer, version := 0, typ := .regular }
        0).1.map (fun t => t.errors.map Problem.code) =
      some ["fi_account_blocked", "intents_mismatch"] := by
  decide

/-- C7 as amended: at intent ProvideChallengeAnswer, a round whose
combined answers contain no `"tan"` answer matching a configured method's
expected answer appends `fi_account_blocked` and clears the step while
the state stays what it was (it remains `Ongoing`; the code, unlike the
SelectAuthMethod branch, never marks it `Failed`), so a further
`ProcessTransfer` with the correct version and the
`ProvideChallengeAnswer` intent is rejected with `intents_mismatch`; a
round with a matching `"tan"` answer moves the order to `Succeeded` and
stamps `EntryDate` and `SettlementDate` to the current instant. -/
theorem progressTransfer_challenge_answer_cases (users : UserTable)
    (tr : TransferOrder) (confirm : Bool) (answers : List ChallengeAnswer)
    (now : Nat) (h1 : tr.transfer.step.intent = .provideChallengeAnswer) :
    (tanMatches tr.accessDetails.transferAuths
        (answers ++ storedAnswersFor users tr) = false →
      (progressTransfer users tr confirm answers now).transfer.errors =
          tr.transfer.errors ++ [{ code := "fi_account_blocked" }] ∧
      (progressTransfer users tr confirm answers now).transfer.state =
          tr.transfer.state ∧
      (progressTransfer users tr confirm answers now).transfer.step =
          emptyStep ∧
      (∀ st1 id1,
        getTransfer st1 .regular id1 =
            some (progressTransfer users tr confirm answers now) →
        handleTransferProcess st1 id1
            { intent := .provideChallengeAnswer,
              version := (progressTransfer users tr confirm answers now).transfer.version,
              typ := .regular } now =
          (some { (progressTransfer users tr confirm answers now).transfer with
                    errors :=
                      (progressTransfer users tr confirm answers now).transfer.errors ++
                        [{ code := "intents_mismatch" }] },
           st1))) ∧
    (tanMatches tr.accessDetails.transferAuths
        (answers ++ storedAnswersFor users tr) = true →
      (progressTransfer users tr confirm answers now).transfer.state =
          .succeeded ∧
      (progressTransfer users tr confirm answers now).transfer.step =
          emptyStep ∧
      (progressTransfer users tr confirm answers now).transfer.entryDate = now ∧
      (progressTransfer users tr confirm answers now).transfer.settlementDate =
          now) := by
  have hred : progressTransfer users tr confirm answers now =
      (if tanMatches tr.accessDetails.transferAuths
          (answers ++ storedAnswersFor users tr) then
        { tr with transfer := { tr.transfer with
            state := .succeeded, step := emptyStep,
            entryDate := now, settlementDate := now } }
      else
        { tr with transfer := { tr.transfer with
            errors := tr.transfer.errors ++ [{ code := "fi_account_blocked" }],
            step := emptyStep } }) := by
    unfold progressTransfer
    rw [h1]
  constructor
  · intro hm
    rw [hred, hm]
    rw [if_neg Bool.false_ne_true]
    refine ⟨rfl, rfl, rfl, ?_⟩
    intro st1 id1 hlook
    unfold handleTransferProcess
    rw [hlook]
    dsimp only
    rw [if_neg (not_not_intro rfl)]
    rw [if_pos (by decide)]
  · intro hm
    rw [hred, hm]
    rw [if_pos rfl]
    exact ⟨rfl, rfl, rfl, rfl⟩

/-- Witness for C7 (amended): the scenario order at
ProvideChallengeAnswer, with the wrong TAN `"0000"` (left conjunct) and
the correct TAN `"4321"` at instant 7 (right conjunct). -/
theorem progressTransfer_challenge_answer_cases_witness :
    (trA3.transfer.errors =
        trA2.transfer.errors ++ [{ code := "fi_account_blocked" }] ∧
     trA3.transfer.state = trA2.transfer.state ∧
     trA3.transfer.step = emptyStep ∧
     handleTransferProcess { users := usersA, transfers := [("t1", trA3)] }
         "t1" { intent := .provideChallengeAnswer,
                version := trA3.transfer.version, typ := .regular } 0 =
       (some { trA3.transfer with
                 errors := trA3.transfer.errors ++ [{ code := "intents_mismatch" }] },
        { users := usersA, transfers := [("t1", trA3)] })) ∧
    (trA3ok.transfer.state = .succeeded ∧
     trA3ok.transfer.entryDate = 7 ∧ trA3ok.transfer.settlementDate = 7) := by
  constructor
  · have h := (progressTransfer_challenge_answer_cases usersA trA2 false
      [{ id := "tan", value := "0000" }] 0 (by decide)).1 (by decide)
    exact ⟨h.1, h.2.1, h.2.2.1,
      h.2.2.2 { users := usersA, transfers := [("t1", trA3)] } "t1" (by decide)⟩
  · have h := (progressTransfer_challenge_answer_cases usersA trA2 false
      [{ id := "tan", value := "4321" }] 7 (by decide)).2 (by decide)
    exact ⟨h.1, h.2.2.1, h.2.2.2⟩

/-! ## Claim C4 -/

theorem isAnswered_eq_false_iff (j : Job) (id val : String) :
    isAnswered j id val = false ↔
      ∀ a ∈ j.suppliedAnswers, ¬(a.id = id ∧ a.value = val) := by
  simp [isAnswered, List.any_eq_true, not_and]

theorem checkChallenge_no_pin (j : Job) (kv : String × String)
    (h : kv.1 ≠ ChallengePIN) :
    checkChallenge j kv = j ∨
    checkChallenge j kv = { j with needsAnswers := true } := by
  unfold checkChallenge
  by_cases ha : isAnswered j kv.1 kv.2 = true
  · rw [if_pos ha]
    left; rfl
  · rw [if_neg ha, if_neg h]
    right; rfl

theorem foldl_checkChallenge_no_pin (l : List (String × String)) (j : Job)
    (hl : ∀ kv ∈ l, kv.1 ≠ ChallengePIN) :
    l.foldl checkChallenge j = j ∨
    l.foldl checkChallenge j = { j with needsAnswers := true } := by
  induction l generalizing j with
  | nil => left; rfl
  | cons kv rest ih =>
    have hkv : kv.1 ≠ ChallengePIN := hl kv (List.mem_cons_self kv rest)
    have hrest : ∀ kv2 ∈ rest, kv2.1 ≠ ChallengePIN := fun kv2 h2 =>
      hl kv2 (List.mem_cons_of_mem kv h2)
    have hstep : (kv :: rest).foldl checkChallenge j =
        rest.foldl checkChallenge (checkChallenge j kv) := rfl
    rw [hstep]
    rcases checkChallenge_no_pin j kv hkv with hc | hc <;> rw [hc]
    · exact ih j hrest
    · rcases ih { j with needsAnswers := true } hrest with hr | hr
      · right; exact hr
      · right
        rw [hr]

/-- C4: on an unfinished job whose ChallengeMap (with pairwise-distinct
challenge IDs) expects `exp` for `"pin"`, if after merging the new
answers no supplied answer carries ID `"pin"` with value `exp`, the round
records exactly the problem pair `user_wrong_pin` and
`connector_field_reset{field_key:"pin"}`, blanks the value of every
supplied `"pin"` answer, and afterwards no non-empty PIN value passes the
job's challenge-resolution check. -/
theorem progressJob_wrong_pin_policy (users : UserTable) (j : Job)
    (answers : List ChallengeAnswer) (exp : String)
    (hfin : j.finished = false)
    (hnodup : (j.accessDetails.challengeMap.map Prod.fst).Nodup)
    (hmem : (ChallengePIN, exp) ∈ j.accessDetails.challengeMap)
    (hunmet : ∀ a ∈ j.suppliedAnswers ++ answers,
      ¬(a.id = ChallengePIN ∧ a.value = exp)) :
    (progressJob users j answers).2.problems =
      [{ code := "user_wrong_pin" },
       { code := "connector_field_reset", fieldKey := some ChallengePIN }] ∧
    (∀ a ∈ (progressJob users j answers).2.suppliedAnswers,
      a.id = ChallengePIN → a.value = "") ∧
    (∀ v, v ≠ "" → isAnswered (progressJob users j answers).2 ChallengePIN v = false) := by
  obtain ⟨l1, l2, hsplit⟩ := List.append_of_mem hmem
  have hnodup2 : ((l1.map Prod.fst) ++ ChallengePIN :: (l2.map Prod.fst)).Nodup := by
    rw [hsplit, List.map_append, List.map_cons] at hnodup
    exact hnodup
  have hk2 : ChallengePIN ∉ l2.map Prod.fst := by
    have hsub : (ChallengePIN :: l2.map Prod.fst).Nodup :=
      (List.sublist_append_right (l1.map Prod.fst) _).nodup hnodup2
    exact (List.nodup_cons.mp hsub).1
  have hk1 : ChallengePIN ∉ l1.map Prod.fst := by
    intro hin
    exact List.disjoint_of_nodup_append hnodup2 hin
      (List.mem_cons_self _ _)
  have hl1 : ∀ kv ∈ l1, kv.1 ≠ ChallengePIN := by
    intro kv hkv he
    exact hk1 (he ▸ List.mem_map_of_mem Prod.fst hkv)
  have hl2 : ∀ kv ∈ l2, kv.1 ≠ ChallengePIN := by
    intro kv hkv he
    exact hk2 (he ▸ List.mem_map_of_mem Prod.fst hkv)
  rw [progressJob_snd _ _ _ hfin]
  simp only [progressJobAdvance]
  set j1 : Job := { j with
    suppliedAnswers := j.suppliedAnswers ++ answers,
    needsAnswers := false,
    problems := [] } with hj1
  rw [hsplit, List.foldl_append]
  have hstep1 : l1.foldl checkChallenge j1 = j1 ∨
      l1.foldl checkChallenge j1 = { j1 with needsAnswers := true } :=
    foldl_checkChallenge_no_pin l1 j1 hl1
  -- the state of the job when the pin entry is processed
  have hmain : ∀ b : Bool,
      ((ChallengePIN, exp) :: l2).foldl checkChallenge
          { j1 with needsAnswers := b } =
        { j1 with
            needsAnswers := true,
            problems :=
              [{ code := "user_wrong_pin" },
               { code := "connector_field_reset", fieldKey := some ChallengePIN }],
            suppliedAnswers := (j.suppliedAnswers ++ answers).map fun a =>
              if a.id = ChallengePIN then { a with value := "" } else a } := by
    intro b
    show l2.foldl checkChallenge
        (checkChallenge { j1 with needsAnswers := b } (ChallengePIN, exp)) = _
    have hunansw :
        isAnswered { j1 with needsAnswers := b } ChallengePIN exp = false := by
      rw [isAnswered_eq_false_iff]
      exact hunmet
    have hchk : checkChallenge { j1 with needsAnswers := b }
        (ChallengePIN, exp) =
        { j1 with
            needsAnswers := true,
            problems :=
              [{ code := "user_wrong_pin" },
               { code := "connector_field_reset", fieldKey := some ChallengePIN }],
            suppliedAnswers := (j.suppliedAnswers ++ answers).map fun a =>
              if a.id = ChallengePIN then { a with value := "" } else a } := by
      unfold checkChallenge
      rw [hunansw]
      rw [if_neg Bool.false_ne_true]
      rw [if_pos rfl]
      rfl
    rw [hchk]
    rcases foldl_checkChallenge_no_pin l2 _ hl2 with hr | hr <;> rw [hr]
  have hfold :
      ((ChallengePIN, exp) :: l2).foldl checkChallenge
          (l1.foldl checkChallenge j1) =
        { j1 with
            needsAnswers := true,
            problems :=
              [{ code := "user_wrong_pin" },
               { code := "connector_field_reset", fieldKey := some ChallengePIN }],
            suppliedAnswers := (j.suppliedAnswers ++ answers).map fun a =>
              if a.id = ChallengePIN then { a with value := "" } else a } := by
    rcases hstep1 with hs | hs <;> rw [hs]
    · have : j1 = { j1 with needsAnswers := false } := rfl
      rw [this]
      exact hmain false
    · exact hmain true
  rw [hfold]
  rw [if_pos rfl]
  refine ⟨rfl, ?_, ?_⟩
  · intro a ha hid
    simp only [List.mem_map] at ha
    obtain ⟨a0, _, hf⟩ := ha
    by_cases h0 : a0.id = ChallengePIN
    · rw [if_pos h0] at hf
      rw [← hf]
    · rw [if_neg h0] at hf
      rw [← hf] at hid
      exact absurd hid h0
  · intro v hv
    rw [isAnswered_eq_false_iff]
    intro a ha ⟨hid, hval⟩
    simp only [List.mem_map] at ha
    obtain ⟨a0, _, hf⟩ := ha
    by_cases h0 : a0.id = ChallengePIN
    · rw [if_pos h0] at hf
      rw [← hf] at hval
      exact hv hval.symm
    · rw [if_neg h0] at hf
      rw [← hf] at hid
      exact absurd hid h0

/-- Witness for C4: the scenario job at the Challenge stage, submitting a
wrong PIN `"9999"` together with the correct login. -/
theorem progressJob_wrong_pin_policy_witness :
    ((progressJob usersA jobC
        [{ id := "login", value := "user" }, { id := "pin", value := "9999" }]).2.problems =
      [{ code := "user_wrong_pin" },
       { code := "connector_field_reset", fieldKey := some ChallengePIN }]) ∧
    (∀ a ∈ (progressJob usersA jobC
        [{ id := "login", value := "user" }, { id := "pin", value := "9999" }]).2.suppliedAnswers,
      a.id = ChallengePIN → a.value = "") ∧
    (∀ v, v ≠ "" →
      isAnswered (progressJob usersA jobC
        [{ id := "login", value := "user" }, { id := "pin", value := "9999" }]).2
        ChallengePIN v = false) :=
  progressJob_wrong_pin_policy usersA jobC
    [{ id := "login", value := "user" }, { id := "pin", value := "9999" }]
    "1234" (by decide) (by decide) (by decide) (by decide)

/-! ## Claim C8 -/

/-- Every binding of a stored-answer map holds an answer whose ID is its
key (true of every map the two `updateStoredAnswers` loops build). -/
def mapConsistent (m : List (String × ChallengeAnswer)) : Prop :=
  ∀ p ∈ m, p.2.id = p.1

theorem mem_keys_tableSet {α : Type} (m : List (String × α)) (k : String)
    (v : α) (a : String) :
    a ∈ (tableSet m k v).map Prod.fst ↔ a ∈ m.map Prod.fst ∨ a = k := by
  induction m with
  | nil => simp [tableSet]
  | cons p rest ih =>
    obtain ⟨k0, v0⟩ := p
    by_cases hk : k0 = k
    · subst hk
      rw [tableSet_cons_eq]
      simp only [List.map_cons, List.mem_cons]
      tauto
    · rw [tableSet_cons_ne _ _ _ _ _ hk]
      simp only [List.map_cons, List.mem_cons, ih]
      tauto

theorem nodup_keys_tableSet {α : Type} (m : List (String × α)) (k : String)
    (v : α) (h : (m.map Prod.fst).Nodup) :
    ((tableSet m k v).map Prod.fst).Nodup := by
  induction m with
  | nil => simp [tableSet]
  | cons p rest ih =>
    obtain ⟨k0, v0⟩ := p
    rw [List.map_cons, List.nodup_cons] at h
    obtain ⟨hnm, hnd⟩ := h
    by_cases hk : k0 = k
    · subst hk
      rw [tableSet_cons_eq, List.map_cons, List.nodup_cons]
      exact ⟨hnm, hnd⟩
    · rw [tableSet_cons_ne _ _ _ _ _ hk, List.map_cons, List.nodup_cons]
      refine ⟨?_, ih hnd⟩
      intro hmem
      rcases (mem_keys_tableSet rest k v k0).mp hmem with h1 | h1
      · exact hnm h1
      · exact hk h1

theorem consistent_tableSet (m : List (String × ChallengeAnswer))
    (k : String) (v : ChallengeAnswer) (hm : mapConsistent m)
    (hv : v.id = k) : mapConsistent (tableSet m k v) := by
  induction m with
  | nil =>
    intro p hp
    rcases List.mem_singleton.mp hp with rfl
    exact hv
  | cons p0 rest ih =>
    obtain ⟨k0, v0⟩ := p0
    have h0 : v0.id = k0 := hm (k0, v0) (List.mem_cons_self _ _)
    have hrest : mapConsistent rest := fun q hq =>
      hm q (List.mem_cons_of_mem _ hq)
    by_cases hk : k0 = k
    · subst hk
      rw [tableSet_cons_eq]
      intro p hp
      rcases List.mem_cons.mp hp with rfl | hp2
      · exact hv
      · exact hrest p hp2
    · rw [tableSet_cons_ne _ _ _ _ _ hk]
      intro p hp
      rcases List.mem_cons.mp hp with rfl | hp2
      · exact h0
      · exact ih hrest p hp2

theorem foldl_preserves {α β : Type} (P : β → Prop) (f : β → α → β)
    (hf : ∀ m a, P m → P (f m a)) :
    ∀ (l : List α) (m : β), P m → P (l.foldl f m) := by
  intro l
  induction l with
  | nil => intro m hm; exact hm
  | cons a rest ih => intro m hm; exact ih (f m a) (hf m a hm)

/-- Invariant of the stored map: key-consistency and distinct keys. -/
def storedInv (m : List (String × ChallengeAnswer)) : Prop :=
  mapConsistent m ∧ (m.map Prod.fst).Nodup

theorem buildStored_inv (prev : List ChallengeAnswer) :
    storedInv (buildStored prev) := by
  unfold buildStored
  refine foldl_preserves storedInv _ ?_ prev []
    ⟨fun p hp => absurd hp (List.not_mem_nil p), List.nodup_nil⟩
  intro m a hm
  exact ⟨consistent_tableSet _ _ _ hm.1 rfl, nodup_keys_tableSet _ _ _ hm.2⟩

theorem insertStored_inv (m : List (String × ChallengeAnswer))
    (ans : List ChallengeAnswer) (hm : storedInv m) :
    storedInv (insertStored m ans) := by
  unfold insertStored
  refine foldl_preserves storedInv _ ?_ ans m hm
  intro m1 a h1
  by_cases hs : a.store = true
  · rw [if_pos hs]
    exact ⟨consistent_tableSet _ _ _ h1.1 rfl, nodup_keys_tableSet _ _ _ h1.2⟩
  · rw [if_neg hs]
    exact h1

theorem map_snd_ids (m : List (String × ChallengeAnswer))
    (hc : mapConsistent m) :
    (m.map Prod.snd).map ChallengeAnswer.id = m.map Prod.fst := by
  induction m with
  | nil => rfl
  | cons p rest ih =>
    have hp : p.2.id = p.1 := hc p (List.mem_cons_self _ _)
    have hrest : mapConsistent rest := fun q hq =>
      hc q (List.mem_cons_of_mem _ hq)
    simp only [List.map_cons, hp, ih hrest]

theorem find?_map_snd (m : List (String × ChallengeAnswer))
    (hc : mapConsistent m) (k : String) :
    (m.map Prod.snd).find? (fun a => a.id == k) = List.lookup k m := by
  induction m with
  | nil => rfl
  | cons p rest ih =>
    obtain ⟨k0, v0⟩ := p
    have hid : v0.id = k0 := hc (k0, v0) (List.mem_cons_self _ _)
    have hrest : mapConsistent rest := fun q hq =>
      hc q (List.mem_cons_of_mem _ hq)
    rw [List.map_cons]
    dsimp only
    by_cases hk : k0 = k
    · subst hk
      have hct : (v0.id == k0) = true := by
        rw [hid]
        exact beq_self_eq_true k0
      rw [lookup_cons_self]
      simp [List.find?, hct]
    · have hcf : (v0.id == k) = false := by
        rw [hid]
        exact beq_eq_false_iff_ne.mpr hk
      rw [lookup_cons_ne _ _ _ _ (Ne.symm hk), ← ih hrest]
      simp [List.find?, hcf]

theorem tableSet_of_not_mem {α : Type} (m : List (String × α)) (k : String)
    (v : α) (h : k ∉ m.map Prod.fst) : tableSet m k v = m ++ [(k, v)] := by
  induction m with
  | nil => rfl
  | cons p rest ih =>
    obtain ⟨k0, v0⟩ := p
    simp only [List.map_cons, List.mem_cons] at h
    push_neg at h
    obtain ⟨h1, h2⟩ := h
    rw [tableSet_cons_ne _ _ _ _ _ (Ne.symm h1), ih h2]
    rfl

theorem tableSet_tableSet {α : Type} (m : List (String × α)) (k : String)
    (v w : α) : tableSet (tableSet m k v) k w = tableSet m k w := by
  induction m with
  | nil => simp [tableSet]
  | cons p rest ih =>
    obtain ⟨k0, v0⟩ := p
    by_cases hk : k0 = k
    · subst hk
      rw [tableSet_cons_eq, tableSet_cons_eq, tableSet_cons_eq]
    · rw [tableSet_cons_ne _ _ _ _ _ hk, tableSet_cons_ne _ _ _ _ _ hk,
        tableSet_cons_ne _ _ _ _ _ hk, ih]

theorem buildStored_rebuild_aux (m : List (String × ChallengeAnswer)) :
    ∀ acc, mapConsistent m →
      (acc.map Prod.fst ++ m.map Prod.fst).Nodup →
      (m.map Prod.snd).foldl (fun m2 a => tableSet m2 a.id a) acc =
        acc ++ m := by
  induction m with
  | nil =>
    intro acc _ _
    simp
  | cons p rest ih =>
    intro acc hc hnd
    obtain ⟨k0, v0⟩ := p
    have hid : v0.id = k0 := hc (k0, v0) (List.mem_cons_self _ _)
    have hrest : mapConsistent rest := fun q hq =>
      hc q (List.mem_cons_of_mem _ hq)
    rw [List.map_cons, List.foldl_cons]
    dsimp only
    have hknotin : k0 ∉ acc.map Prod.fst := by
      intro hin
      rw [List.map_cons] at hnd
      exact List.disjoint_of_nodup_append hnd hin (List.mem_cons_self _ _)
    rw [hid, tableSet_of_not_mem _ _ _ hknotin]
    have hnd2 : ((acc ++ [(k0, v0)]).map Prod.fst ++ rest.map Prod.fst).Nodup := by
      rw [List.map_append]
      rw [List.map_cons] at hnd
      simpa [List.append_assoc] using hnd
    rw [ih (acc ++ [(k0, v0)]) hrest hnd2]
    simp

theorem buildStored_rebuild (m : List (String × ChallengeAnswer))
    (hinv : storedInv m) : buildStored (m.map Prod.snd) = m := by
  unfold buildStored
  have h := buildStored_rebuild_aux m [] hinv.1 (by simpa using hinv.2)
  simpa using h

theorem lookup_insertStored (ans : List ChallengeAnswer) :
    ∀ (m : List (String × ChallengeAnswer)) (k : String),
    List.lookup k (insertStored m ans) =
      (match (ans.filter fun a => a.store && a.id == k).getLast? with
       | none => List.lookup k m
       | some a => some a) := by
  induction ans with
  | nil => intro m k; rfl
  | cons a rest ih =>
    intro m k
    have hstep : insertStored m (a :: rest) =
        insertStored (if a.store then tableSet m a.id a else m) rest := rfl
    rw [hstep]
    by_cases hsk : (a.store && (a.id == k)) = true
    · obtain ⟨hs, hbk⟩ := Bool.and_eq_true_iff.mp hsk
      have hke : a.id = k := eq_of_beq hbk
      have hfil : List.filter (fun x => x.store && x.id == k) (a :: rest) =
          a :: List.filter (fun x => x.store && x.id == k) rest := by
        simp [List.filter_cons, hsk]
      rw [if_pos hs, ih, hfil]
      cases hg : (List.filter (fun x => x.store && x.id == k) rest).getLast? with
      | none =>
        have hemp : List.filter (fun x => x.store && x.id == k) rest = [] :=
          List.getLast?_eq_none_iff.mp hg
        rw [hemp]
        dsimp only [List.getLast?]
        rw [← hke]
        exact lookup_tableSet_self m a.id a
      | some b =>
        have hne : List.filter (fun x => x.store && x.id == k) rest ≠ [] := by
          intro hcontra
          rw [hcontra] at hg
          cases hg
        obtain ⟨c, l2, hshape⟩ := List.exists_cons_of_ne_nil hne
        rw [hshape, List.getLast?_cons_cons, ← hshape, hg]
    · have hskf : (a.store && (a.id == k)) = false := Bool.eq_false_iff.mpr hsk
      have hfc : List.filter (fun x => x.store && x.id == k) (a :: rest) =
          List.filter (fun x => x.store && x.id == k) rest := by
        simp [List.filter_cons, hskf]
      rw [hfc]
      by_cases hs : a.store = true
      · have hbk : (a.id == k) = false := by
          cases hb : (a.id == k) with
          | true => exact absurd (Bool.and_eq_true_iff.mpr ⟨hs, hb⟩) hsk
          | false => rfl
        have hkne : k ≠ a.id := by
          intro he
          rw [he, beq_self_eq_true] at hbk
          cases hbk
        rw [if_pos hs, ih]
        cases hg : (List.filter (fun x => x.store && x.id == k) rest).getLast? with
        | none =>
          dsimp only
          exact lookup_tableSet_ne m a.id k a hkne
        | some b => rfl
      · rw [if_neg hs, ih]

theorem mem_keys_buildStored_aux (P : List ChallengeAnswer) :
    ∀ (m : List (String × ChallengeAnswer)) (a : String),
      (a ∈ (P.foldl (fun m2 x => tableSet m2 x.id x) m).map Prod.fst ↔
        a ∈ m.map Prod.fst ∨ a ∈ P.map ChallengeAnswer.id) := by
  induction P with
  | nil => intro m a; simp
  | cons x rest ih =>
    intro m a
    rw [List.foldl_cons]
    rw [ih (tableSet m x.id x) a, mem_keys_tableSet]
    simp only [List.map_cons, List.mem_cons]
    tauto

theorem mem_keys_insertStored (ans : List ChallengeAnswer) :
    ∀ (m : List (String × ChallengeAnswer)) (a : String),
      (a ∈ (insertStored m ans).map Prod.fst ↔
        a ∈ m.map Prod.fst ∨ ∃ x ∈ ans, x.store = true ∧ x.id = a) := by
  induction ans with
  | nil => intro m a; simp [insertStored]
  | cons x rest ih =>
    intro m a
    have hstep : insertStored m (x :: rest) =
        insertStored (if x.store then tableSet m x.id x else m) rest := rfl
    rw [hstep, ih]
    by_cases hs : x.store = true
    · rw [if_pos hs, mem_keys_tableSet]
      constructor
      · rintro ((h1 | h1) | h1)
        · exact Or.inl h1
        · exact Or.inr ⟨x, List.mem_cons_self _ _, hs, h1.symm⟩
        · obtain ⟨y, hy, hys, hyid⟩ := h1
          exact Or.inr ⟨y, List.mem_cons_of_mem _ hy, hys, hyid⟩
      · rintro (h1 | ⟨y, hy, hys, hyid⟩)
        · exact Or.inl (Or.inl h1)
        · rcases List.mem_cons.mp hy with rfl | hy2
          · exact Or.inl (Or.inr hyid.symm)
          · exact Or.inr ⟨y, hy2, hys, hyid⟩
    · rw [if_neg hs]
      constructor
      · rintro (h1 | ⟨y, hy, hys, hyid⟩)
        · exact Or.inl h1
        · exact Or.inr ⟨y, List.mem_cons_of_mem _ hy, hys, hyid⟩
      · rintro (h1 | ⟨y, hy, hys, hyid⟩)
        · exact Or.inl h1
        · rcases List.mem_cons.mp hy with rfl | hy2
          · exact absurd hys hs
          · exact Or.inr ⟨y, hy2, hys, hyid⟩

theorem userStored_eq (users : UserTable) (uid pid : String) (u : User)
    (hu : List.lookup uid users = some u) :
    userStored users uid pid = (List.lookup pid u.storedAnswers).getD [] := by
  unfold userStored
  rw [hu]

theorem updateStoredAnswers_eq (users : UserTable) (uid pid : String)
    (ans : List ChallengeAnswer) (u : User)
    (hu : List.lookup uid users = some u) :
    updateStoredAnswers users uid pid ans =
      tableSet users u.id
        { u with
          storedAnswers :=
            tableSet u.storedAnswers pid
              ((insertStored
                  (buildStored ((List.lookup pid u.storedAnswers).getD []))
                  ans).map Prod.snd) } := by
  unfold updateStoredAnswers
  rw [hu]

theorem updateStoredAnswers_spec (users : UserTable) (uid pid : String)
    (ans : List ChallengeAnswer) (u : User)
    (hu : List.lookup uid users = some u) (hid : u.id = uid) :
    userStored (updateStoredAnswers users uid pid ans) uid pid =
      (insertStored (buildStored (userStored users uid pid)) ans).map Prod.snd := by
  rw [updateStoredAnswers_eq users uid pid ans u hu,
    userStored_eq users uid pid u hu]
  unfold userStored
  rw [hid, lookup_tableSet_self]
  dsimp only
  rw [lookup_tableSet_self]
  rfl

theorem insertStored_singleton (m : List (String × ChallengeAnswer))
    (a : ChallengeAnswer) (hs : a.store = true) :
    insertStored m [a] = tableSet m a.id a := by
  show (if a.store then tableSet m a.id a else m) = _
  rw [if_pos hs]

theorem updateStoredAnswers_idem (users : UserTable) (uid pid : String)
    (a : ChallengeAnswer) (u : User)
    (hu : List.lookup uid users = some u) (hid : u.id = uid)
    (hs : a.store = true) :
    updateStoredAnswers (updateStoredAnswers users uid pid [a]) uid pid [a] =
      updateStoredAnswers users uid pid [a] := by
  have hMinv :
      storedInv (insertStored (buildStored ((List.lookup pid u.storedAnswers).getD [])) [a]) :=
    insertStored_inv _ _ (buildStored_inv _)
  set M1 := insertStored (buildStored ((List.lookup pid u.storedAnswers).getD [])) [a]
    with hM1
  set u1 : User :=
    { u with storedAnswers := tableSet u.storedAnswers pid (M1.map Prod.snd) }
    with hu1
  have h1 : updateStoredAnswers users uid pid [a] = tableSet users u.id u1 :=
    updateStoredAnswers_eq users uid pid [a] u hu
  have hlook2 : List.lookup uid (tableSet users u.id u1) = some u1 := by
    rw [hid]
    exact lookup_tableSet_self users uid u1
  have hprev2 : (List.lookup pid u1.storedAnswers).getD [] = M1.map Prod.snd := by
    show (List.lookup pid (tableSet u.storedAnswers pid (M1.map Prod.snd))).getD [] = _
    rw [lookup_tableSet_self]
    rfl
  have hM2 :
      insertStored (buildStored ((List.lookup pid u1.storedAnswers).getD [])) [a] =
        M1 := by
    rw [hprev2, buildStored_rebuild M1 hMinv,
      insertStored_singleton _ _ hs, hM1,
      insertStored_singleton _ _ hs]
    exact tableSet_tableSet _ _ _ _
  have hu2 :
      ({ u1 with
         storedAnswers :=
           tableSet u1.storedAnswers pid
             ((insertStored
                 (buildStored ((List.lookup pid u1.storedAnswers).getD []))
                 [a]).map Prod.snd) } : User) = u1 := by
    rw [hM2]
    show ({ u1 with
            storedAnswers :=
              tableSet (tableSet u.storedAnswers pid (M1.map Prod.snd)) pid
                (M1.map Prod.snd) } : User) = u1
    rw [tableSet_tableSet]
  calc updateStoredAnswers (updateStoredAnswers users uid pid [a]) uid pid [a]
      = updateStoredAnswers (tableSet users u.id u1) uid pid [a] := by rw [h1]
    _ = tableSet (tableSet users u.id u1) u1.id
          { u1 with
            storedAnswers :=
              tableSet u1.storedAnswers pid
                ((insertStored
                    (buildStored ((List.lookup pid u1.storedAnswers).getD []))
                    [a]).map Prod.snd) } :=
        updateStoredAnswers_eq (tableSet users u.id u1) uid pid [a] u1 hlook2
    _ = tableSet (tableSet users u.id u1) u1.id u1 := by rw [hu2]
    _ = tableSet users u.id u1 := tableSet_tableSet users u.id u1 u1
    _ = updateStoredAnswers users uid pid [a] := h1.symm

/-- C8: after any submission merge for a user and provider, the stored
answers hold at most one entry per challenge ID; the entry for an ID
submitted with `Store=true` is the last such submitted answer; submitting
the same `Store=true` answer twice yields the same stored state as
submitting it once; and answers with `Store=false` never create a stored
entry. -/
theorem updateStoredAnswers_merge_semantics (users : UserTable)
    (uid pid : String) (ans : List ChallengeAnswer) (u : User)
    (hu : List.lookup uid users = some u) (hid : u.id = uid) :
    ((userStored (updateStoredAnswers users uid pid ans) uid pid).map
        ChallengeAnswer.id).Nodup ∧
    (∀ k, (ans.filter fun a => a.store && a.id == k) ≠ [] →
      (userStored (updateStoredAnswers users uid pid ans) uid pid).find?
          (fun a => a.id == k) =
        (ans.filter fun a => a.store && a.id == k).getLast?) ∧
    (∀ a : ChallengeAnswer, a.store = true →
      updateStoredAnswers (updateStoredAnswers users uid pid [a]) uid pid [a] =
        updateStoredAnswers users uid pid [a]) ∧
    (∀ k, (∀ x ∈ ans, x.id = k → x.store = false) →
      k ∉ (userStored users uid pid).map ChallengeAnswer.id →
      k ∉ (userStored (updateStoredAnswers users uid pid ans) uid pid).map
        ChallengeAnswer.id) := by
  have hspec := updateStoredAnswers_spec users uid pid ans u hu hid
  have hinv : storedInv (insertStored (buildStored (userStored users uid pid)) ans) :=
    insertStored_inv _ _ (buildStored_inv _)
  refine ⟨?_, ?_, ?_, ?_⟩
  · rw [hspec, map_snd_ids _ hinv.1]
    exact hinv.2
  · intro k hne
    rw [hspec, find?_map_snd _ hinv.1 k, lookup_insertStored]
    cases hg : (ans.filter fun a => a.store && a.id == k).getLast? with
    | none => exact absurd (List.getLast?_eq_none_iff.mp hg) hne
    | some b => rfl
  · intro a hs
    exact updateStoredAnswers_idem users uid pid a u hu hid hs
  · intro k hids hnotin
    rw [hspec, map_snd_ids _ hinv.1]
    intro hk
    rcases (mem_keys_insertStored ans _ k).mp hk with h1 | ⟨x, hx, hxs, hxid⟩
    · rcases (mem_keys_buildStored_aux (userStored users uid pid) [] k).mp h1
        with h2 | h2
      · simp at h2
      · exact hnotin h2
    · have hxf := hids x hx hxid
      rw [hxf] at hxs
      cases hxs

/-- A submission batch exercising the merge: two `Store=true` PIN values
(last wins), a stored login, and a `Store=false` TAN. -/
def ansW : List ChallengeAnswer :=
  [{ id := "login", value := "user", store := true },
   { id := "pin", value := "1111", store := true },
   { id := "pin", value := "2222", store := true },
   { id := "tan", value := "9", store := false }]

/-- Witness for C8: on the scenario user, merging `ansW` yields distinct
stored IDs, the `"pin"` entry is the last submitted `"2222"`, a repeated
`Store=true` login is idempotent, and the `Store=false` TAN is never
stored. -/
theorem updateStoredAnswers_merge_semantics_witness :
    ((userStored (updateStoredAnswers usersA "u1" "P1" ansW) "u1" "P1").map
        ChallengeAnswer.id).Nodup ∧
    (userStored (updateStoredAnswers usersA "u1" "P1" ansW) "u1" "P1").find?
        (fun a => a.id == "pin") =
      (ansW.filter fun a => a.store && a.id == "pin").getLast? ∧
    updateStoredAnswers
        (updateStoredAnswers usersA "u1" "P1"
          [{ id := "login", value := "user", store := true }]) "u1" "P1"
        [{ id := "login", value := "user", store := true }] =
      updateStoredAnswers usersA "u1" "P1"
        [{ id := "login", value := "user", store := true }] ∧
    "tan" ∉ (userStored (updateStoredAnswers usersA "u1" "P1" ansW) "u1" "P1").map
      ChallengeAnswer.id := by
  have h := updateStoredAnswers_merge_semantics usersA "u1" "P1" ansW
    { id := "u1" } (by decide) (by decide)
  exact ⟨h.1, h.2.1 "pin" (by decide),
    h.2.2.1 { id := "login", value := "user", store := true } (by decide),
    h.2.2.2 "tan" (by decide) (by decide)⟩

/-! ## Claim C6 -/

/-- The transfer orders constructible through the server API: created by
`newTransfer` (transfer creation, recurring cancel/amend), then mutated
only by `progressTransfer` rounds, which `handleTransferProcess` runs
solely on orders in the `Ongoing` state. -/
inductive ReachableTO : TransferOrder → Prop where
  | created : ∀ users id userID typ answers confirmSimilar adOpt now,
      ReachableTO (newTransfer users id userID typ answers confirmSimilar adOpt now)
  | step : ∀ users tr confirm answers now, ReachableTO tr →
      tr.transfer.state = .ongoing →
      ReachableTO (progressTransfer users tr confirm answers now)

theorem provideCredentialsBody_cases (tr : TransferOrder)
    (combined : List ChallengeAnswer) :
    ((provideCredentialsBody tr combined).transfer.step.intent =
        .selectAuthMethod ∧
     (provideCredentialsBody tr combined).transfer.errors = []) ∨
    ((provideCredentialsBody tr combined).transfer.step.intent =
        .provideCredentials ∧
     (provideCredentialsBody tr combined).transfer.errors =
        tr.transfer.errors ++ [{ code := "fi_invalid_loginname_pin" }] ∧
     (provideCredentialsBody tr combined).transfer.state = .ongoing) := by
  simp only [provideCredentialsBody]
  split
  · left; exact ⟨rfl, rfl⟩
  · right; exact ⟨rfl, rfl, rfl⟩

theorem provideCredentialsBody_inv (tr : TransferOrder)
    (combined : List ChallengeAnswer) :
    ((provideCredentialsBody tr combined).transfer.step.intent =
        .selectAuthMethod ∨
     (provideCredentialsBody tr combined).transfer.step.intent =
        .provideChallengeAnswer) →
    (provideCredentialsBody tr combined).transfer.errors = [] := by
  rcases provideCredentialsBody_cases tr combined with ⟨_, he⟩ | ⟨hi, _, _⟩
  · intro _; exact he
  · rintro (h1 | h1) <;> rw [hi] at h1 <;> exact TransferIntent.noConfusion h1

/-- Preservation of the error invariant: one `progressTransfer` round
keeps "orders sitting at SelectAuthMethod or ProvideChallengeAnswer carry
no errors". -/
theorem progressTransfer_inv (users : UserTable) (tr : TransferOrder)
    (confirm : Bool) (answers : List ChallengeAnswer) (now : Nat)
    (hinv : (tr.transfer.step.intent = .selectAuthMethod ∨
        tr.transfer.step.intent = .provideChallengeAnswer) →
      tr.transfer.errors = []) :
    ((progressTransfer users tr confirm answers now).transfer.step.intent =
        .selectAuthMethod ∨
     (progressTransfer users tr confirm answers now).transfer.step.intent =
        .provideChallengeAnswer) →
    (progressTransfer users tr confirm answers now).transfer.errors = [] := by
  unfold progressTransfer
  cases h : tr.transfer.step.intent <;> dsimp only
  case init =>
    split
    · rintro (h1 | h1) <;> exact TransferIntent.noConfusion h1
    · split
      · rintro (h1 | h1) <;> exact TransferIntent.noConfusion h1
      · exact provideCredentialsBody_inv _ _
  case provideCredentials =>
    exact provideCredentialsBody_inv _ _
  case selectAuthMethod =>
    split
    · intro _
      exact hinv (Or.inl h)
    · rintro (h1 | h1) <;> exact TransferIntent.noConfusion h1
  case provideChallengeAnswer =>
    split
    · rintro (h1 | h1) <;> exact TransferIntent.noConfusion h1
    · rintro (h1 | h1) <;> exact TransferIntent.noConfusion h1
  case confirmSimilarTransfer =>
    rintro (h1 | h1) <;> exact TransferIntent.noConfusion h1
  case empty =>
    rintro (h1 | h1) <;> rw [h] at h1 <;> exact TransferIntent.noConfusion h1

/-- Error invariant of reachable orders: at SelectAuthMethod or
ProvideChallengeAnswer the error list is empty (those intents are only
ever entered through the PIN success transition, which clears it). -/
theorem reachableTO_inv (tr : TransferOrder) (hre : ReachableTO tr) :
    (tr.transfer.step.intent = .selectAuthMethod ∨
     tr.transfer.step.intent = .provideChallengeAnswer) →
    tr.transfer.errors = [] := by
  induction hre with
  | created users id userID typ answers confirmSimilar adOpt now =>
    cases adOpt with
    | none =>
      rintro (h1 | h1) <;> exact TransferIntent.noConfusion h1
    | some ad =>
      exact progressTransfer_inv users _ false answers now (fun _ => rfl)
  | step users tr confirm answers now hre hstate ih =>
    exact progressTransfer_inv users tr confirm answers now ih

/-- Position of an intent in the authorization sequence (the cleared
step's empty intent sits at the bottom). -/
def intentRank : TransferIntent → Nat
  | .empty => 0
  | .init => 1
  | .confirmSimilarTransfer => 2
  | .provideCredentials => 3
  | .selectAuthMethod => 4
  | .provideChallengeAnswer => 5

/-- A round advanced the order: the intent moved forward in the
sequence, or the order reached `Succeeded`. -/
def advanced (tr tr2 : TransferOrder) : Prop :=
  intentRank tr.transfer.step.intent < intentRank tr2.transfer.step.intent ∨
  tr2.transfer.state = .succeeded

/-- Counterexample for C6: the reachable order `trA3` (after scenario 4's
wrong TAN) is still `Ongoing` with the cleared empty step; the further
round to `trA4` fails to advance yet appends no problem at all (the order
is returned unchanged), refuting "every round that fails to advance
appends exactly one new problem". -/
theorem progressTransfer_empty_round_appends_nothing :
    ReachableTO trA3 ∧ trA3.transfer.state = .ongoing ∧
    ¬ advanced trA3 trA4 ∧
    trA4.transfer.errors = trA3.transfer.errors ∧
    ¬ ∃ p, trA4.transfer.errors = trA3.transfer.errors ++ [p] := by
  refine ⟨?_, by decide, ?_, by decide, ?_⟩
  · have h0 : ReachableTO trA0 :=
      ReachableTO.created usersA "t1" "u1" .regular [] false (some adP1) 0
    have h1 : ReachableTO trA1 :=
      ReachableTO.step usersA trA0 false [{ id := "pin", value := "1234" }] 0
        h0 (by decide)
    have h2 : ReachableTO trA2 :=
      ReachableTO.step usersA trA1 false
        [{ id := "auth_method", value := "901" }] 0 h1 (by decide)
    exact ReachableTO.step usersA trA2 false
      [{ id := "tan", value := "0000" }] 0 h2 (by decide)
  · unfold advanced
    decide
  · rintro ⟨p, hp⟩
    have h4 : trA4.transfer.errors = [{ code := "fi_account_blocked" }] := by
      decide
    have h3e : trA3.transfer.errors = [{ code := "fi_account_blocked" }] := by
      decide
    rw [h4, h3e] at hp
    simp at hp

theorem progressTransfer_PC_cases (users : UserTable) (tr : TransferOrder)
    (confirm : Bool) (answers : List ChallengeAnswer) (now : Nat)
    (h : tr.transfer.step.intent = .provideCredentials) :
    ((progressTransfer users tr confirm answers now).transfer.step.intent =
        .selectAuthMethod ∧
     (progressTransfer users tr confirm answers now).transfer.errors = []) ∨
    ((progressTransfer users tr confirm answers now).transfer.step.intent =
        .provideCredentials ∧
     (progressTransfer users tr confirm answers now).transfer.errors =
        tr.transfer.errors ++ [{ code := "fi_invalid_loginname_pin" }] ∧
     (progressTransfer users tr confirm answers now).transfer.state =
        .ongoing) := by
  unfold progressTransfer
  rw [h]
  exact provideCredentialsBody_cases tr _

theorem progressTransfer_SAM_cases (users : UserTable) (tr : TransferOrder)
    (confirm : Bool) (answers : List ChallengeAnswer) (now : Nat)
    (h : tr.transfer.step.intent = .selectAuthMethod) :
    ((progressTransfer users tr confirm answers now).transfer.step.intent =
        .provideChallengeAnswer ∧
     (progressTransfer users tr confirm answers now).transfer.errors =
        tr.transfer.errors ∧
     (progressTransfer users tr confirm answers now).transfer.state =
        .ongoing) ∨
    ((progressTransfer users tr confirm answers now).transfer.step.intent =
        .empty ∧
     (progressTransfer users tr confirm answers now).transfer.errors =
        tr.transfer.errors ++ [{ code := "fi_account_blocked" }] ∧
     (progressTransfer users tr confirm answers now).transfer.state =
        .failed) := by
  unfold progressTransfer
  rw [h]
  dsimp only
  split
  · left; exact ⟨rfl, rfl, rfl⟩
  · right; exact ⟨rfl, rfl, rfl⟩

theorem progressTransfer_PCA_cases (users : UserTable) (tr : TransferOrder)
    (confirm : Bool) (answers : List ChallengeAnswer) (now : Nat)
    (h : tr.transfer.step.intent = .provideChallengeAnswer) :
    ((progressTransfer users tr confirm answers now).transfer.state =
        .succeeded ∧
     (progressTransfer users tr confirm answers now).transfer.errors =
        tr.transfer.errors ∧
     (progressTransfer users tr confirm answers now).transfer.step =
        emptyStep) ∨
    ((progressTransfer users tr confirm answers now).transfer.state =
        tr.transfer.state ∧
     (progressTransfer users tr confirm answers now).transfer.errors =
        tr.transfer.errors ++ [{ code := "fi_account_blocked" }] ∧
     (progressTransfer users tr confirm answers now).transfer.step =
        emptyStep) := by
  unfold progressTransfer
  rw [h]
  dsimp only
  split
  · left; exact ⟨rfl, rfl, rfl⟩
  · right; exact ⟨rfl, rfl, rfl⟩

theorem progressTransfer_init_rank (users : UserTable) (tr : TransferOrder)
    (confirm : Bool) (answers : List ChallengeAnswer) (now : Nat)
    (h : tr.transfer.step.intent = .init) :
    2 ≤ intentRank
      (progressTransfer users tr confirm answers now).transfer.step.intent := by
  unfold progressTransfer
  rw [h]
  dsimp only
  split
  · exact Nat.le_refl 2
  · split
    · exact Nat.le_succ 2
    · rcases provideCredentialsBody_cases
        _ (answers ++ storedAnswersFor users tr) with ⟨hi, _⟩ | ⟨hi, _, _⟩ <;>
        rw [hi] <;> decide

theorem progressTransfer_CS_next (users : UserTable) (tr : TransferOrder)
    (confirm : Bool) (answers : List ChallengeAnswer) (now : Nat)
    (h : tr.transfer.step.intent = .confirmSimilarTransfer) :
    (progressTransfer users tr confirm answers now).transfer.step.intent =
      .provideCredentials := by
  unfold progressTransfer
  rw [h]

theorem progressTransfer_at_empty (users : UserTable) (tr : TransferOrder)
    (confirm : Bool) (answers : List ChallengeAnswer) (now : Nat)
    (h : tr.transfer.step.intent = .empty) :
    progressTransfer users tr confirm answers now = tr := by
  unfold progressTransfer
  rw [h]

/-- C6 as amended: for every reachable Ongoing order, a round that takes
one of the advancing transitions ProvideCredentials→SelectAuthMethod,
SelectAuthMethod→ProvideChallengeAnswer or
ProvideChallengeAnswer→Succeeded leaves the Errors list empty; a round at
one of the sequence's intents that fails to advance appends exactly one
new problem without removing those already recorded; and a round at the
cleared (empty-intent) step left behind by a failed challenge answer
leaves the order entirely unchanged (appending nothing). -/
theorem progressTransfer_advance_error_discipline (users : UserTable)
    (tr : TransferOrder) (confirm : Bool) (answers : List ChallengeAnswer)
    (now : Nat) (hre : ReachableTO tr)
    (hon : tr.transfer.state = .ongoing) :
    ((tr.transfer.step.intent = .provideCredentials ∧
        (progressTransfer users tr confirm answers now).transfer.step.intent =
          .selectAuthMethod) ∨
     (tr.transfer.step.intent = .selectAuthMethod ∧
        (progressTransfer users tr confirm answers now).transfer.step.intent =
          .provideChallengeAnswer) ∨
     (tr.transfer.step.intent = .provideChallengeAnswer ∧
        (progressTransfer users tr confirm answers now).transfer.state =
          .succeeded) →
      (progressTransfer users tr confirm answers now).transfer.errors = []) ∧
    (tr.transfer.step.intent ≠ .empty →
      ¬ advanced tr (progressTransfer users tr confirm answers now) →
      ∃ p, (progressTransfer users tr confirm answers now).transfer.errors =
        tr.transfer.errors ++ [p]) ∧
    (tr.transfer.step.intent = .empty →
      progressTransfer users tr confirm answers now = tr) := by
  refine ⟨?_, ?_, progressTransfer_at_empty users tr confirm answers now⟩
  · rintro (⟨h1, h2⟩ | ⟨h1, h2⟩ | ⟨h1, h2⟩)
    · rcases progressTransfer_PC_cases users tr confirm answers now h1 with
        ⟨_, he⟩ | ⟨hi, _, _⟩
      · exact he
      · rw [hi] at h2
        exact TransferIntent.noConfusion h2
    · rcases progressTransfer_SAM_cases users tr confirm answers now h1 with
        ⟨_, he, _⟩ | ⟨hi, _, _⟩
      · rw [he]
        exact reachableTO_inv tr hre (Or.inl h1)
      · rw [hi] at h2
        exact TransferIntent.noConfusion h2
    · rcases progressTransfer_PCA_cases users tr confirm answers now h1 with
        ⟨_, he, _⟩ | ⟨hs, _, _⟩
      · rw [he]
        exact reachableTO_inv tr hre (Or.inr h1)
      · rw [hon] at hs
        exact TransferState.noConfusion (hs.symm.trans h2)
  · intro hne hnadv
    cases h : tr.transfer.step.intent
    case init =>
      exfalso
      apply hnadv
      unfold advanced
      left
      rw [h]
      exact lt_of_lt_of_le (by decide)
        (progressTransfer_init_rank users tr confirm answers now h)
    case confirmSimilarTransfer =>
      exfalso
      apply hnadv
      unfold advanced
      left
      rw [h, progressTransfer_CS_next users tr confirm answers now h]
      decide
    case provideCredentials =>
      rcases progressTransfer_PC_cases users tr confirm answers now h with
        ⟨hi, _⟩ | ⟨_, he, _⟩
      · exfalso
        apply hnadv
        unfold advanced
        left
        rw [h, hi]
        decide
      · exact ⟨_, he⟩
    case selectAuthMethod =>
      rcases progressTransfer_SAM_cases users tr confirm answers now h with
        ⟨hi, _, _⟩ | ⟨_, he, _⟩
      · exfalso
        apply hnadv
        unfold advanced
        left
        rw [h, hi]
        decide
      · exact ⟨_, he⟩
    case provideChallengeAnswer =>
      rcases progressTransfer_PCA_cases users tr confirm answers now h with
        ⟨hs, _, _⟩ | ⟨_, he, _⟩
      · exfalso
        apply hnadv
        unfold advanced
        right
        exact hs
      · exact ⟨_, he⟩
    case empty => exact absurd h hne

/-- Witness for C6 (amended): the reachable order `trA1` at
SelectAuthMethod, processed with the configured method `"901"` — the
round advances to ProvideChallengeAnswer with an empty error list. -/
theorem progressTransfer_advance_error_discipline_witness :
    (((trA1.transfer.step.intent = .provideCredentials ∧
        trA2.transfer.step.intent = .selectAuthMethod) ∨
      (trA1.transfer.step.intent = .selectAuthMethod ∧
        trA2.transfer.step.intent = .provideChallengeAnswer) ∨
      (trA1.transfer.step.intent = .provideChallengeAnswer ∧
        trA2.transfer.state = .succeeded) →
       trA2.transfer.errors = []) ∧
     (trA1.transfer.step.intent ≠ .empty → ¬ advanced trA1 trA2 →
       ∃ p, trA2.transfer.errors = trA1.transfer.errors ++ [p]) ∧
     (trA1.transfer.step.intent = .empty → trA2 = trA1)) ∧
    trA2.transfer.errors = [] := by
  have h0 : ReachableTO trA0 :=
    ReachableTO.created usersA "t1" "u1" .regular [] false (some adP1) 0
  have h1 : ReachableTO trA1 :=
    ReachableTO.step usersA trA0 false [{ id := "pin", value := "1234" }] 0
      h0 (by decide)
  have hmain := progressTransfer_advance_error_discipline usersA trA1 false
    [{ id := "auth_method", value := "901" }] 0 h1 (by decide)
  exact ⟨hmain, hmain.1 (Or.inr (Or.inl ⟨by decide, by decide⟩))⟩

end Bosgo
